import Mathlib

/-!
# LAOF: the learning-automata objective function of rpl-laof.c

A shallow embedding of `src/rpl-laof.c` (an extension of Contiki's MRHOF
objective function) and theorems about it.

Modelling conventions.

* C `int` values are mathematical integers (`Int`): the arithmetic of the
  file is assumed not to overflow `int`, and operands of type `uint16_t`
  are promoted to a wider `int` before they are added, subtracted or
  compared.
* A store into a `uint16_t` object (`rpl_rank_t`, `rpl_path_metric_t`,
  `link_metric`, local `uint16_t` variables) reduces the value modulo
  `2^16` (`u16`); `++` on a `short int` counter wraps into
  `[-32768, 32767]` (`s16`).
* `float` values are rationals (`ℚ`): the weights are taken in exact
  arithmetic.
* Pointers are `Option Nat` (`none` is `NULL`); the records they point to
  are read from a memory snapshot `Mem`.
* Macros of headers that are not part of the file
  (`RPL_DAG_MC_ETX_DIVISOR`, `RPL_INIT_LINK_METRIC`, `MAC_TX_NOACK`,
  `RPL_DAG_MC`) are fields of `Config`; the constants and field widths of
  the metric container are fields of `McConfig`.
-/

namespace LAOF

/-! ## Configuration and constants -/

/-- The value of the build-time switch `RPL_DAG_MC`: which metric container
the objective function publishes. -/
inductive MetricMode where
  | RPL_DAG_MC_NONE
  | RPL_DAG_MC_ETX
  | RPL_DAG_MC_ENERGY
  deriving DecidableEq, Repr

/-- Macros used by `rpl-laof.c` whose definitions live in headers outside
the file; they are parameters of every definition below. -/
structure Config where
  /-- The fixed-point divisor of the ETX metric. -/
  RPL_DAG_MC_ETX_DIVISOR : Int
  /-- The configured initial link metric (in ETX units). -/
  RPL_INIT_LINK_METRIC : Int
  /-- The MAC status code of a transmission that was never acknowledged. -/
  MAC_TX_NOACK : Int
  /-- The build mode of the metric container. -/
  RPL_DAG_MC : MetricMode
  deriving Repr

/-- The macro `MAX_LINK_METRIC`, defined as 10. -/
def MAX_LINK_METRIC : Int := 10

/-- The macro `MAX_PATH_COST`, defined as 100. -/
def MAX_PATH_COST : Int := 100

/-- The macro `PARENT_SWITCH_THRESHOLD_DIV`, defined as 2. -/
def PARENT_SWITCH_THRESHOLD_DIV : Int := 2

/-- The macro `LA_Threshold`, defined as 25. -/
def LA_Threshold : Int := 25

/-- The macro `LA_Negative_Threshold`, defined as 4. -/
def LA_Negative_Threshold : Int := 4

/-- The macro `ETX_COUNT`, defined as 9. -/
def ETX_COUNT : Nat := 9

/-- The rank sentinel `INFINITE_RANK` of `rpl-private.h`, the largest
`rpl_rank_t` (`0xffff`). -/
def INFINITE_RANK : Int := 0xFFFF

/-- Conversion of an `int` value to `uint16_t`. -/
def u16 (x : Int) : Int := x % 65536

/-- Conversion of an `int` value to `short int` (two's complement wrap). -/
def s16 (x : Int) : Int := (x + 32768) % 65536 - 32768

/-! ## Records of the routing engine read by the objective function -/

/-- The fields of `rpl_dag_t` that the file reads. -/
structure rpl_dag_t where
  grounded : Bool
  preference : Int
  rank : Int
  joined : Bool
  /-- Pointer to the preferred parent, `none` for `NULL`. -/
  preferred_parent : Option Nat

/-- The fields of `rpl_parent_t` that the file reads. -/
structure rpl_parent_t where
  /-- Pointer to the DAG of the parent. -/
  dag : Nat
  rank : Int
  /-- The field `mc.obj.etx`. -/
  mc_obj_etx : Int
  /-- The field `mc.obj.energy.energy_est`. -/
  mc_obj_energy_est : Int

/-- A snapshot of the memory of the routing engine: the DAG and parent
records by address, and the neighbor table. -/
structure Mem where
  dags : Nat → rpl_dag_t
  parents : Nat → rpl_parent_t
  /-- The lookup `rpl_get_nbr(p)` for a non-null parent `p`: the
  `link_metric` cell of its neighbor entry, `none` when it returns `NULL`. -/
  rpl_get_nbr : Nat → Option Int

/-! ## The estimator: the file-scope variables of the learning automaton -/

/-- The globals `iterations`, `n_iterations`, `ETX_values`, `probVector`
(`flag` and `flag2` are never read or written). -/
structure Estimator where
  iterations : Int
  n_iterations : Int
  ETX_values : List Int
  probVector : List ℚ

/-- The estimator at program start: static storage is zero-initialised. -/
def Estimator.init : Estimator :=
  { iterations := 0
    n_iterations := 0
    ETX_values := List.replicate ETX_COUNT 0
    probVector := List.replicate ETX_COUNT 0 }

/-- The loop "reset etx probabilities":
`probVector[i] = 1/ETX_COUNT; ETX_values[i] = i+1;` for `i < ETX_COUNT`.
The quotient `1/ETX_COUNT` is an integer division. -/
def reset_etx_prob (s : Estimator) : Estimator :=
  (List.range ETX_COUNT).foldl
    (fun s i =>
      { s with
        probVector := s.probVector.set i (((1 / ETX_COUNT : Nat) : ℚ))
        ETX_values := s.ETX_values.set i ((i : Int) + 1) })
    s

/-- The loop "learning penalty" with `b = 0.1`: the entry whose bin equals
`recorded_etx*RPL_DAG_MC_ETX_DIVISOR` becomes `(1 - b)*probVector[i]`, every
other entry `b/(ETX_COUNT - 1) + (1 - b)*probVector[i]`. -/
def learning_penalty (cfg : Config) (ETX_values : List Int) (recorded_etx : Int)
    (probVector : List ℚ) : List ℚ :=
  let b : ℚ := 1 / 10
  (List.range ETX_COUNT).foldl
    (fun pv i =>
      if ETX_values.getD i 0 = recorded_etx * cfg.RPL_DAG_MC_ETX_DIVISOR then
        pv.set i ((1 - b) * pv.getD i 0)
      else
        pv.set i (b / ((ETX_COUNT - 1 : Nat) : ℚ) + (1 - b) * pv.getD i 0))
    probVector

/-- The loop "learning reward" with `a = 0.1`: the entry whose bin equals
`numtx` becomes `probVector[i] + a*(1 - probVector[i])`, every other entry
`(1 - a)*probVector[i]`. -/
def learning_reward (ETX_values : List Int) (numtx : Int) (probVector : List ℚ) : List ℚ :=
  let a : ℚ := 1 / 10
  (List.range ETX_COUNT).foldl
    (fun pv i =>
      if ETX_values.getD i 0 = numtx then
        pv.set i (pv.getD i 0 + a * (1 - pv.getD i 0))
      else
        pv.set i ((1 - a) * pv.getD i 0))
    probVector

/-- The loop "assign highest probability": the pair
`(max_prob_val, max_prob_idx)` after the scan that starts from `(0, 0)` and
moves on a strictly greater entry. -/
def highest_etx_scan (probVector : List ℚ) : ℚ × Nat :=
  (List.range ETX_COUNT).foldl
    (fun acc i => if probVector.getD i 0 > acc.1 then (probVector.getD i 0, i) else acc)
    ((0 : ℚ), 0)

/-- The index `max_prob_idx` chosen by the decision step. -/
def highest_etx (probVector : List ℚ) : Nat := (highest_etx_scan probVector).2

/-- The body of `if(status == MAC_TX_NOACK)` after `packet_etx` is set to the
failure ceiling: count the failure and, when `iterations > LA_Threshold` and
`n_iterations == LA_Negative_Threshold`, reset the probabilities and both
counters. -/
def noack_step (s : Estimator) : Estimator :=
  let s := { s with n_iterations := s16 (s.n_iterations + 1) }
  if s.iterations > LA_Threshold ∧ s.n_iterations = LA_Negative_Threshold then
    { reset_etx_prob s with iterations := 0, n_iterations := 0 }
  else s

/-- The block `if(iterations <= LA_Threshold)`: the penalty update when
`packet_etx` equals `MAX_LINK_METRIC * RPL_DAG_MC_ETX_DIVISOR`, the reward
update otherwise. -/
def learning_phase (cfg : Config) (s : Estimator) (packet_etx recorded_etx numtx : Int) :
    Estimator :=
  if s.iterations ≤ LA_Threshold then
    if packet_etx = MAX_LINK_METRIC * cfg.RPL_DAG_MC_ETX_DIVISOR then
      { s with probVector := learning_penalty cfg s.ETX_values recorded_etx s.probVector }
    else
      { s with probVector := learning_reward s.ETX_values numtx s.probVector }
  else s

/-- The block `if(iterations >= LA_Threshold)`: the value of `new_etx` after
it, `ETX_values[max_prob_idx]*RPL_DAG_MC_ETX_DIVISOR` stored into a
`uint16_t` when the block runs and the incoming `new_etx` otherwise. -/
def decision_step (cfg : Config) (s : Estimator) (new_etx : Int) : Int :=
  if s.iterations ≥ LA_Threshold then
    u16 (s.ETX_values.getD (highest_etx s.probVector) 0 * cfg.RPL_DAG_MC_ETX_DIVISOR)
  else new_etx

/-- The function `neighbor_link_callback(p, status, numtx)`. The argument
`nbr` is the result of `rpl_get_nbr(p)`: the `link_metric` cell of the
neighbor, or `none` for `NULL`. The result is the estimator after the call
and the value stored into `nbr->link_metric` (`none` when nothing is
stored). -/
def neighbor_link_callback (cfg : Config) (s : Estimator) (nbr : Option Int)
    (status numtx : Int) : Estimator × Option Int :=
  let s := if s.iterations = 0 then reset_etx_prob s else s
  let packet_etx := u16 (numtx * cfg.RPL_DAG_MC_ETX_DIVISOR)
  let new_etx := u16 (3 * cfg.RPL_DAG_MC_ETX_DIVISOR)
  match nbr with
  | none => (s, none)
  | some link_metric =>
    let s := { s with iterations := s16 (s.iterations + 1) }
    let recorded_etx := link_metric
    let s := if status = cfg.MAC_TX_NOACK then noack_step s else s
    let packet_etx :=
      if status = cfg.MAC_TX_NOACK then u16 (MAX_LINK_METRIC * cfg.RPL_DAG_MC_ETX_DIVISOR)
      else packet_etx
    let s := learning_phase cfg s packet_etx recorded_etx numtx
    let new_etx := decision_step cfg s new_etx
    (s, some new_etx)

/-- One feedback event as the routing engine delivers it: the result of the
neighbor lookup (the current `link_metric`, if the neighbor resolves), the
MAC status and the number of transmissions. -/
structure Feedback where
  nbr : Option Int
  status : Int
  numtx : Int

/-- The estimator after a sequence of feedback calls. -/
def run (cfg : Config) (s : Estimator) (events : List Feedback) : Estimator :=
  events.foldl (fun s e => (neighbor_link_callback cfg s e.nbr e.status e.numtx).1) s

/-- The estimator states that feedback calls can produce from program start. -/
def Reachable (cfg : Config) (s : Estimator) : Prop :=
  ∃ events : List Feedback, run cfg Estimator.init events = s

/-- A feedback call for one resolvable neighbor whose `link_metric` cell is
threaded through the call: the pair is the estimator and the cell. -/
def feedback (cfg : Config) (st : Estimator × Int) (status numtx : Int) : Estimator × Int :=
  let r := neighbor_link_callback cfg st.1 (some st.2) status numtx
  (r.1, r.2.getD st.2)

/-- A sequence of feedback calls for one resolvable neighbor, each reporting
`numtx`, with the given MAC statuses. -/
def feedbacks (cfg : Config) (st : Estimator × Int) (statuses : List Int) (numtx : Int) :
    Estimator × Int :=
  statuses.foldl (fun st status => feedback cfg st status numtx) st

/-! ## Path cost, rank and selection -/

/-- The function `calculate_path_metric(p)`. -/
def calculate_path_metric (cfg : Config) (mem : Mem) (p : Option Nat) : Int :=
  match p with
  | none => u16 (MAX_PATH_COST * cfg.RPL_DAG_MC_ETX_DIVISOR)
  | some a =>
    match mem.rpl_get_nbr a with
    | none => u16 (MAX_PATH_COST * cfg.RPL_DAG_MC_ETX_DIVISOR)
    | some link_metric =>
      match cfg.RPL_DAG_MC with
      | MetricMode.RPL_DAG_MC_NONE => u16 ((mem.parents a).rank + u16 link_metric)
      | MetricMode.RPL_DAG_MC_ETX => u16 ((mem.parents a).mc_obj_etx + u16 link_metric)
      | MetricMode.RPL_DAG_MC_ENERGY =>
        u16 ((mem.parents a).mc_obj_energy_est + u16 link_metric)

/-- The tail of `calculate_rank`: `INFINITE_RANK` when
`INFINITE_RANK - base_rank < rank_increase`, and `base_rank + rank_increase`
stored into an `rpl_rank_t` otherwise. -/
def saturating_rank (base_rank rank_increase : Int) : Int :=
  if INFINITE_RANK - base_rank < rank_increase then INFINITE_RANK
  else u16 (base_rank + rank_increase)

/-- The function `calculate_rank(p, base_rank)`. -/
def calculate_rank (cfg : Config) (mem : Mem) (p : Option Nat) (base_rank : Int) : Int :=
  let unresolved : Int :=
    if base_rank = 0 then INFINITE_RANK
    else saturating_rank base_rank (u16 (cfg.RPL_INIT_LINK_METRIC * cfg.RPL_DAG_MC_ETX_DIVISOR))
  match p with
  | none => unresolved
  | some a =>
    match mem.rpl_get_nbr a with
    | none => unresolved
    | some link_metric =>
      let rank_increase := link_metric
      let base_rank := if base_rank = 0 then (mem.parents a).rank else base_rank
      saturating_rank base_rank rank_increase

/-- The function `best_dag(d1, d2)` on pointers to DAG records. -/
def best_dag (mem : Mem) (d1 d2 : Nat) : Nat :=
  if (mem.dags d1).grounded ≠ (mem.dags d2).grounded then
    if (mem.dags d1).grounded then d1 else d2
  else if (mem.dags d1).preference ≠ (mem.dags d2).preference then
    if (mem.dags d1).preference > (mem.dags d2).preference then d1 else d2
  else if (mem.dags d1).rank < (mem.dags d2).rank then d1 else d2

/-- The function `best_parent(p1, p2)`; `p1` is dereferenced, so it is a
non-null pointer, `p2` and the result are possibly null pointers. -/
def best_parent (cfg : Config) (mem : Mem) (p1 : Nat) (p2 : Option Nat) : Option Nat :=
  let dag := mem.dags (mem.parents p1).dag
  let min_diff := u16 (Int.tdiv cfg.RPL_DAG_MC_ETX_DIVISOR PARENT_SWITCH_THRESHOLD_DIV)
  let p1_metric := calculate_path_metric cfg mem (some p1)
  let p2_metric := calculate_path_metric cfg mem p2
  if (some p1 = dag.preferred_parent ∨ p2 = dag.preferred_parent) ∧
      (p1_metric < p2_metric + min_diff ∧ p1_metric > p2_metric - min_diff) then
    dag.preferred_parent
  else if p1_metric < p2_metric then some p1 else p2

/-! ## The metric container -/

/-- The fields of the metric container `instance->mc` written by
`update_metric_container`. The members `etx` and `energy` of the union `obj`
are kept apart: a build writes one of them only. -/
structure rpl_metric_container_t where
  type : Int
  flags : Int
  aggr : Int
  prec : Int
  length : Int
  /-- The field `obj.etx`. -/
  obj_etx : Int
  /-- The field `obj.energy.flags`. -/
  obj_energy_flags : Int
  /-- The field `obj.energy.energy_est`. -/
  obj_energy_energy_est : Int

/-- The fields of `rpl_instance_t` that `update_metric_container` uses. -/
structure rpl_instance_t where
  mc : rpl_metric_container_t
  /-- Pointer to the current DAG. -/
  current_dag : Nat
  /-- The value of `ROOT_RANK(instance)`, a macro of `rpl-private.h` that
  reads the instance. -/
  ROOT_RANK : Int

/-- Constants and field types of the metric container, declared in headers
outside the file. -/
structure McConfig where
  /-- The numeric value of the macro `RPL_DAG_MC`. -/
  RPL_DAG_MC : Int
  RPL_DAG_MC_FLAG_P : Int
  RPL_DAG_MC_AGGR_ADDITIVE : Int
  RPL_DAG_MC_ENERGY_TYPE_MAINS : Int
  RPL_DAG_MC_ENERGY_TYPE_BATTERY : Int
  /-- The shift count `RPL_DAG_MC_ENERGY_TYPE`. -/
  RPL_DAG_MC_ENERGY_TYPE : Nat
  /-- The value of `sizeof(instance->mc.obj.etx)`. -/
  sizeof_etx : Int
  /-- The value of `sizeof(instance->mc.obj.energy)`. -/
  sizeof_energy : Int
  /-- The number of values of the unsigned field `obj.etx`. -/
  etx_range : Int
  /-- The number of values of the unsigned field `obj.energy.energy_est`. -/
  energy_est_range : Int
  /-- The number of values of the unsigned field `obj.energy.flags`. -/
  energy_flags_range : Int

/-- The function `update_metric_container(instance)`, one branch per build
mode. In the ETX build the lines left over from two commented-out print
statements (`instance->mc.obj.etx);` and the three lines after the second
`//PRINTF`) are not translated: they have unbalanced parentheses and carry no
assignment. -/
def update_metric_container (cfg : Config) (mcc : McConfig) (mem : Mem)
    (inst : rpl_instance_t) : rpl_instance_t :=
  match cfg.RPL_DAG_MC with
  | MetricMode.RPL_DAG_MC_NONE =>
    { inst with mc := { inst.mc with type := mcc.RPL_DAG_MC } }
  | MetricMode.RPL_DAG_MC_ETX =>
    let inst : rpl_instance_t :=
      { inst with mc := { inst.mc with
          type := mcc.RPL_DAG_MC, flags := mcc.RPL_DAG_MC_FLAG_P,
          aggr := mcc.RPL_DAG_MC_AGGR_ADDITIVE, prec := 0 } }
    let dag := mem.dags inst.current_dag
    if dag.joined = false then inst
    else
      let path_metric : Int :=
        if dag.rank = inst.ROOT_RANK then 0
        else calculate_path_metric cfg mem dag.preferred_parent
      { inst with mc := { inst.mc with
          length := mcc.sizeof_etx, obj_etx := path_metric % mcc.etx_range } }
  | MetricMode.RPL_DAG_MC_ENERGY =>
    let inst : rpl_instance_t :=
      { inst with mc := { inst.mc with
          type := mcc.RPL_DAG_MC, flags := mcc.RPL_DAG_MC_FLAG_P,
          aggr := mcc.RPL_DAG_MC_AGGR_ADDITIVE, prec := 0 } }
    let dag := mem.dags inst.current_dag
    if dag.joined = false then inst
    else
      let path_metric : Int :=
        if dag.rank = inst.ROOT_RANK then 0
        else calculate_path_metric cfg mem dag.preferred_parent
      let type : Int :=
        if dag.rank = inst.ROOT_RANK then mcc.RPL_DAG_MC_ENERGY_TYPE_MAINS
        else mcc.RPL_DAG_MC_ENERGY_TYPE_BATTERY
      { inst with mc := { inst.mc with
          length := mcc.sizeof_energy
          obj_energy_flags :=
            (type * 2 ^ mcc.RPL_DAG_MC_ENERGY_TYPE) % mcc.energy_flags_range
          obj_energy_energy_est := path_metric % mcc.energy_est_range } }

/-! ## Auxiliary definitions: invariants, the reference rule and concrete inputs -/

/-- The weight vector with `w` at the bin of value `k` and zero elsewhere. -/
def peak (k : Int) (w : ℚ) : List ℚ :=
  [if 1 = k then w else 0, if 2 = k then w else 0, if 3 = k then w else 0,
   if 4 = k then w else 0, if 5 = k then w else 0, if 6 = k then w else 0,
   if 7 = k then w else 0, if 8 = k then w else 0, if 9 = k then w else 0]

/-- The estimator after `n` successful events that all reported `k`
transmissions, from a fresh estimator. -/
def RewardInv (k : Int) (n : Nat) (s : Estimator) : Prop :=
  s.iterations = n ∧ s.n_iterations = 0 ∧ s.ETX_values.length = 9 ∧ s.probVector.length = 9 ∧
    (1 ≤ n → s.ETX_values = [1, 2, 3, 4, 5, 6, 7, 8, 9] ∧
      s.probVector = peak k (1 - (9 / 10) ^ n))

/-- The configuration of a stock Contiki build: divisor 256, initial link
metric 2, `MAC_TX_NOACK = 2`, no metric container. -/
def cfg256 : Config :=
  { RPL_DAG_MC_ETX_DIVISOR := 256, RPL_INIT_LINK_METRIC := 2, MAC_TX_NOACK := 2,
    RPL_DAG_MC := MetricMode.RPL_DAG_MC_NONE }

/-- A successful event (status 0) reporting no transmission, for a neighbor
with `link_metric = 768`. -/
def idle_success : Feedback := { nbr := some 768, status := 0, numtx := 0 }

/-- A terminal failure (status `MAC_TX_NOACK = 2`) for a neighbor with
`link_metric = 768`. -/
def noack_failure : Feedback := { nbr := some 768, status := 2, numtx := 1 }

/-- The estimator with the given `iterations`, no failure counted, the bins
`1..9` and all weights zero. -/
def idle_state (n : Int) : Estimator :=
  { iterations := n, n_iterations := 0, ETX_values := [1, 2, 3, 4, 5, 6, 7, 8, 9],
    probVector := [0, 0, 0, 0, 0, 0, 0, 0, 0] }

/-- The build with divisor 2, for which the hysteresis band is one unit. -/
def cfg2 : Config :=
  { RPL_DAG_MC_ETX_DIVISOR := 2, RPL_INIT_LINK_METRIC := 2, MAC_TX_NOACK := 2,
    RPL_DAG_MC := MetricMode.RPL_DAG_MC_NONE }

/-- A memory with one DAG (address 0, preferred parent 1) and two parents
whose neighbors have `link_metric = 6`: parent 1 with rank 95, parent 2 with
rank 94, every other parent with rank 95. -/
def mem_two_parents : Mem :=
  { dags := fun _ =>
      { grounded := true, preference := 0, rank := 200, joined := true,
        preferred_parent := some 1 }
    parents := fun a =>
      { dag := 0, rank := if a = 2 then 94 else 95, mc_obj_etx := 0, mc_obj_energy_est := 0 }
    rpl_get_nbr := fun _ => some 6 }

/-- The lexicographic rule of the specification for two trees: if exactly
one of them is grounded, the grounded one; otherwise, if the preferences
differ, the one with the higher preference; otherwise `a` when its rank is
strictly lower and `b` when the rank of `a` is greater or equal. -/
def best_tree_reference (mem : Mem) (a b : Nat) : Nat :=
  let A := mem.dags a
  let B := mem.dags b
  if A.grounded = true ∧ B.grounded = false then a
  else if A.grounded = false ∧ B.grounded = true then b
  else if B.preference < A.preference then a
  else if A.preference < B.preference then b
  else if A.rank < B.rank then a
  else b

/-- Three DAG records: DAG 0 grounded, preference 1, rank 300; DAG 1
grounded, preference 0, rank 200; every other DAG floating, rank 100. -/
def mem_three_dags : Mem :=
  { dags := fun d =>
      if d = 0 then
        { grounded := true, preference := 1, rank := 300, joined := true,
          preferred_parent := none }
      else if d = 1 then
        { grounded := true, preference := 0, rank := 200, joined := true,
          preferred_parent := none }
      else
        { grounded := false, preference := 5, rank := 100, joined := false,
          preferred_parent := none }
    parents := fun _ => { dag := 0, rank := 0, mc_obj_etx := 0, mc_obj_energy_est := 0 }
    rpl_get_nbr := fun _ => none }

/-- The build with divisor 1: the link metric is the ETX itself. -/
def cfg1 : Config :=
  { RPL_DAG_MC_ETX_DIVISOR := 1, RPL_INIT_LINK_METRIC := 2, MAC_TX_NOACK := 2,
    RPL_DAG_MC := MetricMode.RPL_DAG_MC_NONE }

/-- A terminal failure (status `MAC_TX_NOACK = 2`) for a neighbor with
`link_metric = 3`. -/
def noack_failure_three : Feedback := { nbr := some 3, status := 2, numtx := 1 }

/-- The field of the parent that `calculate_path_metric` adds to the link
metric in each build mode: the advertised rank without a metric container,
the advertised path cost `mc.obj.etx` or `mc.obj.energy.energy_est` in the
ETX and energy builds. -/
def advertised_cost (cfg : Config) (p : rpl_parent_t) : Int :=
  match cfg.RPL_DAG_MC with
  | MetricMode.RPL_DAG_MC_NONE => p.rank
  | MetricMode.RPL_DAG_MC_ETX => p.mc_obj_etx
  | MetricMode.RPL_DAG_MC_ENERGY => p.mc_obj_energy_est

/-- A memory whose parent 1 has a neighbor with `link_metric = 768`, rank
65000 and advertised costs 512 and 40, and whose other parents do not
resolve. -/
def mem_one_neighbor : Mem :=
  { dags := fun _ =>
      { grounded := true, preference := 0, rank := 200, joined := true,
        preferred_parent := some 1 }
    parents := fun _ =>
      { dag := 0, rank := 65000, mc_obj_etx := 512, mc_obj_energy_est := 40 }
    rpl_get_nbr := fun a => if a = 1 then some 768 else none }

/-- The invariant of the estimator: nine bins, nine weights, and every
weight between 0 and 1. -/
def WeightsInv (s : Estimator) : Prop :=
  s.ETX_values.length = 9 ∧ s.probVector.length = 9 ∧ ∀ w ∈ s.probVector, 0 ≤ w ∧ w ≤ 1

/-- The estimator of a call for a resolvable neighbor just before the block
`if(iterations <= LA_Threshold)`: after the initialisation on
`iterations == 0`, `iterations++` and, on `MAC_TX_NOACK`, the failure count
and the automatic reset. -/
def counting_step (cfg : Config) (s : Estimator) (status : Int) : Estimator :=
  let s := if s.iterations = 0 then reset_etx_prob s else s
  let s := { s with iterations := s16 (s.iterations + 1) }
  if status = cfg.MAC_TX_NOACK then noack_step s else s

/-- The value of `packet_etx` when the block `if(iterations <= LA_Threshold)`
is reached. -/
def observed_cost (cfg : Config) (status numtx : Int) : Int :=
  if status = cfg.MAC_TX_NOACK then u16 (MAX_LINK_METRIC * cfg.RPL_DAG_MC_ETX_DIVISOR)
  else u16 (numtx * cfg.RPL_DAG_MC_ETX_DIVISOR)

/-- The numeric payload of the metric container in a metric-enabled build:
`obj.etx` in the ETX build and `obj.energy.energy_est` in the energy build. -/
def payload (cfg : Config) (mc : rpl_metric_container_t) : Int :=
  match cfg.RPL_DAG_MC with
  | MetricMode.RPL_DAG_MC_NONE => 0
  | MetricMode.RPL_DAG_MC_ETX => mc.obj_etx
  | MetricMode.RPL_DAG_MC_ENERGY => mc.obj_energy_energy_est

/-- The number of values of the payload field of the build. -/
def payload_range (cfg : Config) (mcc : McConfig) : Int :=
  match cfg.RPL_DAG_MC with
  | MetricMode.RPL_DAG_MC_NONE => 0
  | MetricMode.RPL_DAG_MC_ETX => mcc.etx_range
  | MetricMode.RPL_DAG_MC_ENERGY => mcc.energy_est_range

/-- The container constants of Contiki's `rpl.h` for the energy metric, with
a 16-bit `etx` field and 8-bit energy fields. -/
def mcc_energy : McConfig :=
  { RPL_DAG_MC := 2, RPL_DAG_MC_FLAG_P := 8, RPL_DAG_MC_AGGR_ADDITIVE := 0,
    RPL_DAG_MC_ENERGY_TYPE_MAINS := 0, RPL_DAG_MC_ENERGY_TYPE_BATTERY := 1,
    RPL_DAG_MC_ENERGY_TYPE := 1, sizeof_etx := 2, sizeof_energy := 2,
    etx_range := 65536, energy_est_range := 256, energy_flags_range := 256 }

/-- The energy build with divisor 256. -/
def cfg_energy : Config :=
  { RPL_DAG_MC_ETX_DIVISOR := 256, RPL_INIT_LINK_METRIC := 2, MAC_TX_NOACK := 2,
    RPL_DAG_MC := MetricMode.RPL_DAG_MC_ENERGY }

/-- An instance whose current DAG is DAG 0, with an empty container and
root rank 256. -/
def inst_zero : rpl_instance_t :=
  { mc := { type := 0, flags := 0, aggr := 0, prec := 0, length := 0, obj_etx := 0,
            obj_energy_flags := 0, obj_energy_energy_est := 0 }
    current_dag := 0
    ROOT_RANK := 256 }

/-! ## Theorems

Auxiliary lemmas on the loops over the nine-element arrays come first. -/

theorem list_length_nine {α : Type} (l : List α) (h : l.length = 9) :
    ∃ a0 a1 a2 a3 a4 a5 a6 a7 a8, l = [a0, a1, a2, a3, a4, a5, a6, a7, a8] := by
  match l, h with
  | [a0, a1, a2, a3, a4, a5, a6, a7, a8], _ => exact ⟨a0, a1, a2, a3, a4, a5, a6, a7, a8, rfl⟩

theorem range_nine : List.range ETX_COUNT = [0, 1, 2, 3, 4, 5, 6, 7, 8] := by decide

theorem reset_etx_prob_iterations (s : Estimator) :
    (reset_etx_prob s).iterations = s.iterations := rfl

theorem reset_etx_prob_n_iterations (s : Estimator) :
    (reset_etx_prob s).n_iterations = s.n_iterations := rfl

theorem reset_etx_prob_ETX_values (s : Estimator) (h : s.ETX_values.length = 9) :
    (reset_etx_prob s).ETX_values = [1, 2, 3, 4, 5, 6, 7, 8, 9] := by
  obtain ⟨a0, a1, a2, a3, a4, a5, a6, a7, a8, hl⟩ := list_length_nine _ h
  have : (reset_etx_prob s).ETX_values =
      (List.range ETX_COUNT).foldl (fun l i => l.set i ((i : Int) + 1)) s.ETX_values := rfl
  rw [this, hl, range_nine]
  rfl

theorem reset_etx_prob_probVector (s : Estimator) (h : s.probVector.length = 9) :
    (reset_etx_prob s).probVector = [0, 0, 0, 0, 0, 0, 0, 0, 0] := by
  obtain ⟨a0, a1, a2, a3, a4, a5, a6, a7, a8, hl⟩ := list_length_nine _ h
  have : (reset_etx_prob s).probVector =
      (List.range ETX_COUNT).foldl (fun l i => l.set i (((1 / ETX_COUNT : Nat) : ℚ)))
        s.probVector := rfl
  rw [this, hl, range_nine]
  simp [ETX_COUNT]

theorem learning_reward_nine (b0 b1 b2 b3 b4 b5 b6 b7 b8 numtx : Int)
    (w0 w1 w2 w3 w4 w5 w6 w7 w8 : ℚ) :
    learning_reward [b0, b1, b2, b3, b4, b5, b6, b7, b8] numtx
        [w0, w1, w2, w3, w4, w5, w6, w7, w8] =
      [if b0 = numtx then w0 + 1 / 10 * (1 - w0) else (1 - 1 / 10) * w0,
       if b1 = numtx then w1 + 1 / 10 * (1 - w1) else (1 - 1 / 10) * w1,
       if b2 = numtx then w2 + 1 / 10 * (1 - w2) else (1 - 1 / 10) * w2,
       if b3 = numtx then w3 + 1 / 10 * (1 - w3) else (1 - 1 / 10) * w3,
       if b4 = numtx then w4 + 1 / 10 * (1 - w4) else (1 - 1 / 10) * w4,
       if b5 = numtx then w5 + 1 / 10 * (1 - w5) else (1 - 1 / 10) * w5,
       if b6 = numtx then w6 + 1 / 10 * (1 - w6) else (1 - 1 / 10) * w6,
       if b7 = numtx then w7 + 1 / 10 * (1 - w7) else (1 - 1 / 10) * w7,
       if b8 = numtx then w8 + 1 / 10 * (1 - w8) else (1 - 1 / 10) * w8] := by
  have hbody : ∀ (E : List Int) (pv : List ℚ),
      learning_reward E numtx pv = (List.range ETX_COUNT).foldl
        (fun pv i => pv.set i (if E.getD i 0 = numtx then
          pv.getD i 0 + 1 / 10 * (1 - pv.getD i 0) else (1 - 1 / 10) * pv.getD i 0)) pv := by
    intro E pv
    unfold learning_reward
    dsimp only
    congr 1
    funext pv i
    split <;> rfl
  rw [hbody, range_nine]
  rfl

theorem learning_penalty_nine (cfg : Config) (b0 b1 b2 b3 b4 b5 b6 b7 b8 r : Int)
    (w0 w1 w2 w3 w4 w5 w6 w7 w8 : ℚ) :
    learning_penalty cfg [b0, b1, b2, b3, b4, b5, b6, b7, b8] r
        [w0, w1, w2, w3, w4, w5, w6, w7, w8] =
      [if b0 = r * cfg.RPL_DAG_MC_ETX_DIVISOR then (1 - 1 / 10) * w0 else 1 / 10 / 8 + (1 - 1 / 10) * w0,
       if b1 = r * cfg.RPL_DAG_MC_ETX_DIVISOR then (1 - 1 / 10) * w1 else 1 / 10 / 8 + (1 - 1 / 10) * w1,
       if b2 = r * cfg.RPL_DAG_MC_ETX_DIVISOR then (1 - 1 / 10) * w2 else 1 / 10 / 8 + (1 - 1 / 10) * w2,
       if b3 = r * cfg.RPL_DAG_MC_ETX_DIVISOR then (1 - 1 / 10) * w3 else 1 / 10 / 8 + (1 - 1 / 10) * w3,
       if b4 = r * cfg.RPL_DAG_MC_ETX_DIVISOR then (1 - 1 / 10) * w4 else 1 / 10 / 8 + (1 - 1 / 10) * w4,
       if b5 = r * cfg.RPL_DAG_MC_ETX_DIVISOR then (1 - 1 / 10) * w5 else 1 / 10 / 8 + (1 - 1 / 10) * w5,
       if b6 = r * cfg.RPL_DAG_MC_ETX_DIVISOR then (1 - 1 / 10) * w6 else 1 / 10 / 8 + (1 - 1 / 10) * w6,
       if b7 = r * cfg.RPL_DAG_MC_ETX_DIVISOR then (1 - 1 / 10) * w7 else 1 / 10 / 8 + (1 - 1 / 10) * w7,
       if b8 = r * cfg.RPL_DAG_MC_ETX_DIVISOR then (1 - 1 / 10) * w8 else 1 / 10 / 8 + (1 - 1 / 10) * w8] := by
  have hbody : ∀ (E : List Int) (pv : List ℚ),
      learning_penalty cfg E r pv = (List.range ETX_COUNT).foldl
        (fun pv i => pv.set i (if E.getD i 0 = r * cfg.RPL_DAG_MC_ETX_DIVISOR then
          (1 - 1 / 10) * pv.getD i 0 else 1 / 10 / ((ETX_COUNT - 1 : Nat) : ℚ) + (1 - 1 / 10) * pv.getD i 0)) pv := by
    intro E pv
    unfold learning_penalty
    dsimp only
    congr 1
    funext pv i
    split <;> rfl
  rw [hbody, range_nine]
  simp [ETX_COUNT]

/-! ### The feedback call in normal form -/

theorem s16_of_range (x : Int) (h : -32768 ≤ x ∧ x ≤ 32767) : s16 x = x := by
  unfold s16; omega

theorem u16_of_range (x : Int) (h : 0 ≤ x ∧ x < 65536) : u16 x = x := by
  unfold u16; omega

theorem callback_success (cfg : Config) (s : Estimator) (m status numtx : Int)
    (hs : status ≠ cfg.MAC_TX_NOACK) :
    neighbor_link_callback cfg s (some m) status numtx =
      (let s0 := if s.iterations = 0 then reset_etx_prob s else s
       let s1 := learning_phase cfg { s0 with iterations := s16 (s0.iterations + 1) }
          (u16 (numtx * cfg.RPL_DAG_MC_ETX_DIVISOR)) m numtx
       (s1, some (decision_step cfg s1 (u16 (3 * cfg.RPL_DAG_MC_ETX_DIVISOR))))) := by
  unfold neighbor_link_callback
  simp only [hs, if_false]

theorem callback_failure (cfg : Config) (s : Estimator) (m numtx : Int) :
    neighbor_link_callback cfg s (some m) cfg.MAC_TX_NOACK numtx =
      (let s0 := if s.iterations = 0 then reset_etx_prob s else s
       let s1 := learning_phase cfg (noack_step { s0 with iterations := s16 (s0.iterations + 1) })
          (u16 (MAX_LINK_METRIC * cfg.RPL_DAG_MC_ETX_DIVISOR)) m numtx
       (s1, some (decision_step cfg s1 (u16 (3 * cfg.RPL_DAG_MC_ETX_DIVISOR))))) := by
  unfold neighbor_link_callback
  simp only [if_true]

/-! ### C1: twenty-five successes -/

theorem learning_reward_peak (k : Int) (hk : 1 ≤ k ∧ k ≤ 9) (w : ℚ) :
    learning_reward [1, 2, 3, 4, 5, 6, 7, 8, 9] k (peak k w) = peak k (w + 1 / 10 * (1 - w)) := by
  obtain ⟨h1, h9⟩ := hk
  unfold peak
  rw [learning_reward_nine]
  interval_cases k <;> norm_num

theorem highest_etx_peak (k : Int) (hk : 1 ≤ k ∧ k ≤ 9) (w : ℚ) (hw : 0 < w) :
    ([1, 2, 3, 4, 5, 6, 7, 8, 9] : List Int).getD (highest_etx (peak k w)) 0 = k := by
  obtain ⟨h1, h9⟩ := hk
  unfold peak highest_etx highest_etx_scan
  rw [range_nine]
  interval_cases k <;> simp [hw, not_lt.mpr hw.le]

theorem peak_length (k : Int) (w : ℚ) : (peak k w).length = 9 := rfl

theorem peak_zero (k : Int) : peak k 0 = [0, 0, 0, 0, 0, 0, 0, 0, 0] := by
  simp [peak]

theorem feedback_success_step (cfg : Config) (hD : 0 < cfg.RPL_DAG_MC_ETX_DIVISOR)
    (h16 : 9 * cfg.RPL_DAG_MC_ETX_DIVISOR < 65536) (k : Int) (hk : 1 ≤ k ∧ k ≤ 9)
    (st : Estimator × Int) (n : Nat) (hn : n < 25) (status : Int)
    (hs : status ≠ cfg.MAC_TX_NOACK) (hinv : RewardInv k n st.1) :
    RewardInv k (n + 1) (feedback cfg st status k).1 ∧
      (feedback cfg st status k).2 =
        if n + 1 = 25 then k * cfg.RPL_DAG_MC_ETX_DIVISOR
        else u16 (3 * cfg.RPL_DAG_MC_ETX_DIVISOR) := by
  obtain ⟨hit, hnit, hEl, hPl, hrest⟩ := hinv
  obtain ⟨hk1, hk9⟩ := hk
  -- the state after the optional initialisation
  have h0 : ∃ s0 : Estimator, (if st.1.iterations = 0 then reset_etx_prob st.1 else st.1) = s0 ∧
      s0.iterations = n ∧ s0.n_iterations = 0 ∧ s0.ETX_values = [1, 2, 3, 4, 5, 6, 7, 8, 9] ∧
      s0.probVector = peak k (1 - (9 / 10) ^ n) := by
    refine ⟨_, rfl, ?_⟩
    rcases Nat.eq_zero_or_pos n with hz | hp
    · subst hz
      have : st.1.iterations = 0 := by simpa using hit
      rw [if_pos this]
      refine ⟨by simpa using this, hnit, reset_etx_prob_ETX_values _ hEl, ?_⟩
      rw [reset_etx_prob_probVector _ hPl]
      simp [peak_zero]
    · have : st.1.iterations ≠ 0 := by rw [hit]; exact_mod_cast hp.ne'
      rw [if_neg this]
      exact ⟨hit, hnit, hrest hp⟩
  obtain ⟨s0, hs0, hit0, hnit0, hE0, hP0⟩ := h0
  have hpk : u16 (k * cfg.RPL_DAG_MC_ETX_DIVISOR) ≠
      MAX_LINK_METRIC * cfg.RPL_DAG_MC_ETX_DIVISOR := by
    rw [u16_of_range _ (by constructor <;> nlinarith)]
    unfold MAX_LINK_METRIC
    intro h
    nlinarith
  have hkD : u16 (k * cfg.RPL_DAG_MC_ETX_DIVISOR) = k * cfg.RPL_DAG_MC_ETX_DIVISOR :=
    u16_of_range _ (by constructor <;> nlinarith)
  have hit1 : s16 (s0.iterations + 1) = (n : Int) + 1 := by
    rw [hit0]; exact s16_of_range _ (by constructor <;> omega)
  have hle : ((n : Int) + 1) ≤ LA_Threshold := by unfold LA_Threshold; omega
  have hw : (1 : ℚ) - (9 / 10) ^ n + 1 / 10 * (1 - (1 - (9 / 10) ^ n)) = 1 - (9 / 10) ^ (n + 1) := by
    rw [pow_succ]; ring
  have hpos : (0 : ℚ) < 1 - (9 / 10) ^ (n + 1) := by
    have : ((9 : ℚ) / 10) ^ (n + 1) < 1 := pow_lt_one₀ (by norm_num) (by norm_num) (by omega)
    linarith
  unfold feedback
  rw [callback_success cfg st.1 st.2 status k hs]
  simp only [hs0, hit1, learning_phase, hle, if_true, hpk, if_false, hE0, hP0,
    learning_reward_peak k ⟨hk1, hk9⟩, hw, decision_step, Option.getD_some, ge_iff_le]
  refine ⟨⟨by push_cast; rfl, hnit0, rfl, peak_length _ _, fun _ => ⟨rfl, rfl⟩⟩, ?_⟩
  by_cases h25 : n + 1 = 25
  · have : LA_Threshold ≤ (n : Int) + 1 := by unfold LA_Threshold; omega
    rw [if_pos this, if_pos h25, highest_etx_peak k ⟨hk1, hk9⟩ _ hpos, hkD]
  · have : ¬ LA_Threshold ≤ (n : Int) + 1 := by unfold LA_Threshold; omega
    rw [if_neg this, if_neg h25]

theorem feedbacks_success (cfg : Config) (hD : 0 < cfg.RPL_DAG_MC_ETX_DIVISOR)
    (h16 : 9 * cfg.RPL_DAG_MC_ETX_DIVISOR < 65536) (k : Int) (hk : 1 ≤ k ∧ k ≤ 9) :
    ∀ (statuses : List Int) (st : Estimator × Int) (n : Nat),
      RewardInv k n st.1 → n + statuses.length ≤ 25 →
      (∀ x ∈ statuses, x ≠ cfg.MAC_TX_NOACK) →
      RewardInv k (n + statuses.length) (feedbacks cfg st statuses k).1 ∧
        (statuses ≠ [] → (feedbacks cfg st statuses k).2 =
          if n + statuses.length = 25 then k * cfg.RPL_DAG_MC_ETX_DIVISOR
          else u16 (3 * cfg.RPL_DAG_MC_ETX_DIVISOR)) := by
  intro statuses
  induction statuses with
  | nil =>
    intro st n hinv _ _
    exact ⟨hinv, fun h => absurd rfl h⟩
  | cons x xs ih =>
    intro st n hinv hlen hok
    have hlen1 : n + 1 + xs.length ≤ 25 := by
      simp only [List.length_cons] at hlen; omega
    obtain ⟨hinv1, hm1⟩ := feedback_success_step cfg hD h16 k hk st n (by omega) x
      (hok x (List.mem_cons_self _ _)) hinv
    obtain ⟨hinv2, hm2⟩ := ih (feedback cfg st x k) (n + 1) hinv1 hlen1
      (fun y hy => hok y (List.mem_cons_of_mem _ hy))
    have hfold : feedbacks cfg st (x :: xs) k = feedbacks cfg (feedback cfg st x k) xs k := rfl
    have hadd : n + (x :: xs).length = n + 1 + xs.length := by
      simp only [List.length_cons]; omega
    rw [hfold, hadd]
    refine ⟨hinv2, fun _ => ?_⟩
    rcases xs with _ | ⟨y, ys⟩
    · simpa [feedbacks] using hm1
    · exact hm2 (List.cons_ne_nil _ _)

theorem rewardInv_init (k : Int) : RewardInv k 0 Estimator.init :=
  ⟨rfl, rfl, rfl, rfl, fun h => absurd h (by decide)⟩

/-- C1: from a freshly constructed estimator, 25 successful feedback events
for a resolvable neighbor that all report `k` transmissions (`1 ≤ k ≤ 9`)
make the decision step of the 25th event select the bin of value `k`, and
leave `k * RPL_DAG_MC_ETX_DIVISOR` in the `link_metric` of the neighbor
(for a positive divisor whose nine scaled bins fit 16 bits). -/
theorem twenty_five_successes_select_bin (cfg : Config)
    (hD : 0 < cfg.RPL_DAG_MC_ETX_DIVISOR) (h16 : 9 * cfg.RPL_DAG_MC_ETX_DIVISOR < 65536)
    (k : Int) (hk : 1 ≤ k ∧ k ≤ 9) (m0 : Int) (statuses : List Int)
    (hlen : statuses.length = 25) (hok : ∀ x ∈ statuses, x ≠ cfg.MAC_TX_NOACK) :
    (feedbacks cfg (Estimator.init, m0) statuses k).1.iterations = 25 ∧
    (feedbacks cfg (Estimator.init, m0) statuses k).1.ETX_values.getD
        (highest_etx (feedbacks cfg (Estimator.init, m0) statuses k).1.probVector) 0 = k ∧
      (feedbacks cfg (Estimator.init, m0) statuses k).2 = k * cfg.RPL_DAG_MC_ETX_DIVISOR := by
  obtain ⟨⟨hit, _, _, _, hrest⟩, hm⟩ := feedbacks_success cfg hD h16 k hk statuses
    (Estimator.init, m0) 0 (rewardInv_init k) (by omega) hok
  have hne : statuses ≠ [] := by
    intro h; rw [h] at hlen; simp at hlen
  have h25 : 0 + statuses.length = 25 := by omega
  rw [h25] at hit hrest
  obtain ⟨hE, hP⟩ := hrest (by norm_num)
  refine ⟨by simpa using hit, ?_, ?_⟩
  · rw [hE, hP]
    refine highest_etx_peak k hk _ ?_
    have : ((9 : ℚ) / 10) ^ 25 < 1 := pow_lt_one₀ (by norm_num) (by norm_num) (by norm_num)
    linarith
  · rw [hm hne, if_pos h25]

theorem twenty_five_successes_select_bin_witness :
    (feedbacks cfg256 (Estimator.init, 512) (List.replicate 25 0) 2).1.iterations = 25 ∧
    (feedbacks cfg256 (Estimator.init, 512) (List.replicate 25 0) 2).1.ETX_values.getD
        (highest_etx (feedbacks cfg256 (Estimator.init, 512) (List.replicate 25 0) 2).1.probVector) 0 = 2 ∧
      (feedbacks cfg256 (Estimator.init, 512) (List.replicate 25 0) 2).2 = 2 * 256 :=
  twenty_five_successes_select_bin cfg256 (by decide) (by decide) 2 (by decide) 512
    (List.replicate 25 0) (by decide) (by decide)

/-! ### C2: the link metric below the threshold -/

theorem learning_phase_iterations (cfg : Config) (s : Estimator) (p r n : Int) :
    (learning_phase cfg s p r n).iterations = s.iterations := by
  unfold learning_phase
  split_ifs <;> rfl

theorem callback_link_metric (cfg : Config) (s : Estimator) (m status numtx : Int) :
    (neighbor_link_callback cfg s (some m) status numtx).2 =
      some (decision_step cfg (neighbor_link_callback cfg s (some m) status numtx).1
        (u16 (3 * cfg.RPL_DAG_MC_ETX_DIVISOR))) := by
  by_cases hs : status = cfg.MAC_TX_NOACK
  · subst hs
    rw [callback_failure]
  · rw [callback_success _ _ _ _ _ hs]

/-- C2 (amended): a feedback call for a resolvable neighbor that ends with
`iterations` below `LA_Threshold` stores the fixed default
`3 * RPL_DAG_MC_ETX_DIVISOR` (as a `uint16_t`) into `link_metric`, whatever
the cell held before the call. -/
theorem below_threshold_stores_default (cfg : Config) (s : Estimator) (m status numtx : Int)
    (h : (neighbor_link_callback cfg s (some m) status numtx).1.iterations < LA_Threshold) :
    (neighbor_link_callback cfg s (some m) status numtx).2 =
      some (u16 (3 * cfg.RPL_DAG_MC_ETX_DIVISOR)) := by
  rw [callback_link_metric]
  unfold decision_step
  rw [if_neg (not_le.mpr h)]

theorem below_threshold_stores_default_witness :
    (neighbor_link_callback cfg256 Estimator.init (some 512) 0 2).1.iterations < LA_Threshold ∧
    (neighbor_link_callback cfg256 Estimator.init (some 512) 0 2).2 = some (u16 (3 * 256)) :=
  ⟨by decide, below_threshold_stores_default cfg256 Estimator.init 512 0 2 (by decide)⟩

/-- C2 as stated fails: a first successful event for a neighbor whose
`link_metric` is 512 ends with `iterations = 1`, below the threshold, and
leaves 768 in the cell. -/
theorem below_threshold_overwrites_link_metric :
    (feedback cfg256 (Estimator.init, 512) 0 2).1.iterations < LA_Threshold ∧
      (feedback cfg256 (Estimator.init, 512) 0 2).2 = 768 ∧
      (feedback cfg256 (Estimator.init, 512) 0 2).2 ≠ 512 := by
  decide

/-! ### C3: the penalty update -/

/-- C3, evaluated at the failing input: with divisor 256, a success reporting
3 transmissions leaves weight `1/10` on bin 3 and `link_metric = 768`
(ETX 3); the terminal failure that follows is a learning-phase penalty
update, and it raises the weight of bin 3 to `1/80 + 9/10 * (1/10)` like
that of every other bin, because no bin equals `768 * 256`. -/
theorem penalty_misses_recorded_bin :
    (feedback cfg256 (Estimator.init, 768) 0 3).2 = 768 ∧
    (feedback cfg256 (Estimator.init, 768) 0 3).1.probVector =
      [0, 0, 1 / 10, 0, 0, 0, 0, 0, 0] ∧
    (feedback cfg256 (feedback cfg256 (Estimator.init, 768) 0 3) cfg256.MAC_TX_NOACK 1).1.iterations
      = 2 ∧
    (feedback cfg256 (feedback cfg256 (Estimator.init, 768) 0 3) cfg256.MAC_TX_NOACK 1).1.probVector
      = [1 / 80, 1 / 80, 41 / 400, 1 / 80, 1 / 80, 1 / 80, 1 / 80, 1 / 80, 1 / 80] := by
  have h1 : feedback cfg256 (Estimator.init, 768) 0 3 =
      ({ iterations := 1, n_iterations := 0, ETX_values := [1, 2, 3, 4, 5, 6, 7, 8, 9],
         probVector := [0, 0, 1 / 10, 0, 0, 0, 0, 0, 0] }, 768) := by
    unfold feedback
    rw [callback_success cfg256 _ _ _ _ (by decide)]
    have hE := reset_etx_prob_ETX_values Estimator.init rfl
    have hP := reset_etx_prob_probVector Estimator.init rfl
    have hi : Estimator.init.iterations = 0 := rfl
    simp only [hi, if_true, reset_etx_prob_iterations, reset_etx_prob_n_iterations, hE, hP]
    have hs : s16 (0 + 1) = 1 := by decide
    have hp : ¬ ((768 : Int) = MAX_LINK_METRIC * cfg256.RPL_DAG_MC_ETX_DIVISOR) := by decide
    have hn0 : Estimator.init.n_iterations = 0 := rfl
    have hu : u16 (3 * cfg256.RPL_DAG_MC_ETX_DIVISOR) = 768 := by decide
    have hle : (1 : Int) ≤ LA_Threshold := by decide
    have hge : ¬ (LA_Threshold ≤ (1 : Int)) := by decide
    simp only [hs, learning_phase, hle, if_true, hu, hp, if_false, learning_reward_nine,
      decision_step, ge_iff_le, hge, Option.getD_some, hn0]
    norm_num
  rw [h1]
  refine ⟨rfl, rfl, ?_⟩
  unfold feedback
  rw [callback_failure]
  have hs : s16 (1 + 1) = 2 := by decide
  have hp : u16 (MAX_LINK_METRIC * cfg256.RPL_DAG_MC_ETX_DIVISOR) =
      MAX_LINK_METRIC * cfg256.RPL_DAG_MC_ETX_DIVISOR := by decide
  have hn : ¬ ((2 : Int) > LA_Threshold ∧ s16 (0 + 1) = LA_Negative_Threshold) := by decide
  have hle : (2 : Int) ≤ LA_Threshold := by decide
  have h10 : ((1 : Int) = 0) = False := by simp
  simp only [h10, if_false, hs, noack_step, hn, learning_phase, hle, if_true, hp,
    learning_penalty_nine]
  refine ⟨trivial, ?_⟩
  have hD : cfg256.RPL_DAG_MC_ETX_DIVISOR = 256 := rfl
  rw [hD]
  norm_num

/-! ### C4: the automatic reset -/

theorem foldl_length_of_step {α β : Type} (f : List α → β → List α)
    (hf : ∀ l i, (f l i).length = l.length) (is : List β) (l : List α) :
    (is.foldl f l).length = l.length := by
  induction is generalizing l with
  | nil => rfl
  | cons i is ih => rw [List.foldl_cons, ih, hf]

theorem learning_reward_length (E : List Int) (numtx : Int) (pv : List ℚ) :
    (learning_reward E numtx pv).length = pv.length := by
  unfold learning_reward
  apply foldl_length_of_step
  intro l i
  dsimp only
  split <;> simp

theorem learning_penalty_length (cfg : Config) (E : List Int) (r : Int) (pv : List ℚ) :
    (learning_penalty cfg E r pv).length = pv.length := by
  unfold learning_penalty
  apply foldl_length_of_step
  intro l i
  dsimp only
  split <;> simp

theorem reset_etx_prob_lengths (s : Estimator) :
    (reset_etx_prob s).ETX_values.length = s.ETX_values.length ∧
      (reset_etx_prob s).probVector.length = s.probVector.length := by
  unfold reset_etx_prob
  generalize List.range ETX_COUNT = is
  induction is generalizing s with
  | nil => exact ⟨rfl, rfl⟩
  | cons i is ih =>
    rw [List.foldl_cons]
    obtain ⟨h1, h2⟩ := ih { s with
        probVector := s.probVector.set i (((1 / ETX_COUNT : Nat) : ℚ))
        ETX_values := s.ETX_values.set i ((i : Int) + 1) }
    rw [h1, h2]
    simp

theorem noack_step_lengths (s : Estimator) :
    (noack_step s).ETX_values.length = s.ETX_values.length ∧
      (noack_step s).probVector.length = s.probVector.length := by
  unfold noack_step
  dsimp only
  split
  · exact reset_etx_prob_lengths _
  · exact ⟨rfl, rfl⟩

theorem learning_phase_lengths (cfg : Config) (s : Estimator) (p r n : Int) :
    (learning_phase cfg s p r n).ETX_values.length = s.ETX_values.length ∧
      (learning_phase cfg s p r n).probVector.length = s.probVector.length := by
  unfold learning_phase
  split_ifs
  · exact ⟨rfl, learning_penalty_length _ _ _ _⟩
  · exact ⟨rfl, learning_reward_length _ _ _⟩
  · exact ⟨rfl, rfl⟩

theorem callback_lengths (cfg : Config) (s : Estimator) (nbr : Option Int) (status numtx : Int) :
    (neighbor_link_callback cfg s nbr status numtx).1.ETX_values.length = s.ETX_values.length ∧
      (neighbor_link_callback cfg s nbr status numtx).1.probVector.length =
        s.probVector.length := by
  have h0 : (if s.iterations = 0 then reset_etx_prob s else s).ETX_values.length =
        s.ETX_values.length ∧
      (if s.iterations = 0 then reset_etx_prob s else s).probVector.length =
        s.probVector.length := by
    split
    · exact reset_etx_prob_lengths s
    · exact ⟨rfl, rfl⟩
  cases nbr with
  | none => exact h0
  | some m =>
    by_cases hs : status = cfg.MAC_TX_NOACK
    · subst hs
      rw [callback_failure]
      dsimp only
      obtain ⟨a, b⟩ := learning_phase_lengths cfg (noack_step
        { (if s.iterations = 0 then reset_etx_prob s else s) with
          iterations := s16 ((if s.iterations = 0 then reset_etx_prob s else s).iterations + 1) })
        (u16 (MAX_LINK_METRIC * cfg.RPL_DAG_MC_ETX_DIVISOR)) m numtx
      obtain ⟨c, d⟩ := noack_step_lengths
        { (if s.iterations = 0 then reset_etx_prob s else s) with
          iterations := s16 ((if s.iterations = 0 then reset_etx_prob s else s).iterations + 1) }
      rw [a, b, c, d]
      exact h0
    · rw [callback_success _ _ _ _ _ hs]
      dsimp only
      obtain ⟨a, b⟩ := learning_phase_lengths cfg
        { (if s.iterations = 0 then reset_etx_prob s else s) with
          iterations := s16 ((if s.iterations = 0 then reset_etx_prob s else s).iterations + 1) }
        (u16 (numtx * cfg.RPL_DAG_MC_ETX_DIVISOR)) m numtx
      rw [a, b]
      exact h0

theorem run_lengths (cfg : Config) (events : List Feedback) (s : Estimator) :
    (run cfg s events).ETX_values.length = s.ETX_values.length ∧
      (run cfg s events).probVector.length = s.probVector.length := by
  induction events generalizing s with
  | nil => exact ⟨rfl, rfl⟩
  | cons e es ih =>
    have : run cfg s (e :: es) =
        run cfg (neighbor_link_callback cfg s e.nbr e.status e.numtx).1 es := rfl
    rw [this]
    obtain ⟨a, b⟩ := ih (neighbor_link_callback cfg s e.nbr e.status e.numtx).1
    obtain ⟨c, d⟩ := callback_lengths cfg s e.nbr e.status e.numtx
    exact ⟨a.trans c, b.trans d⟩

theorem reachable_lengths (cfg : Config) (s : Estimator) (h : Reachable cfg s) :
    s.ETX_values.length = 9 ∧ s.probVector.length = 9 := by
  obtain ⟨events, rfl⟩ := h
  exact run_lengths cfg events Estimator.init

theorem failure_step_no_reset (cfg : Config) (s : Estimator) (m numtx : Int)
    (h1 : 25 ≤ s.iterations) (h2 : s.iterations ≤ 32766)
    (hn : 0 ≤ s.n_iterations ∧ s.n_iterations ≤ 32766) (hn4 : s.n_iterations ≠ 3) :
    (neighbor_link_callback cfg s (some m) cfg.MAC_TX_NOACK numtx).1 =
      { s with iterations := s.iterations + 1, n_iterations := s.n_iterations + 1 } := by
  rw [callback_failure]
  have h0 : ¬ s.iterations = 0 := by omega
  have hs : s16 (s.iterations + 1) = s.iterations + 1 := s16_of_range _ (by constructor <;> omega)
  have hsn : s16 (s.n_iterations + 1) = s.n_iterations + 1 :=
    s16_of_range _ (by constructor <;> omega)
  have hc : ¬ (s.iterations + 1 > LA_Threshold ∧ s.n_iterations + 1 = LA_Negative_Threshold) := by
    unfold LA_Negative_Threshold; omega
  have hl : ¬ (s.iterations + 1 ≤ LA_Threshold) := by unfold LA_Threshold; omega
  simp only [h0, if_false, hs, noack_step, hsn, hc, learning_phase, hl]

theorem penalty_on_reset_weights (cfg : Config) (m : Int) :
    ∀ w ∈ learning_penalty cfg [1, 2, 3, 4, 5, 6, 7, 8, 9] m [0, 0, 0, 0, 0, 0, 0, 0, 0],
      w = 0 ∨ w = 1 / 10 / 8 := by
  rw [learning_penalty_nine]
  intro w hw
  simp only [List.mem_cons, List.mem_singleton, List.not_mem_nil, or_false, mul_zero,
    add_zero] at hw
  rcases hw with h | h | h | h | h | h | h | h | h <;> rw [h] <;> split_ifs <;> simp

theorem idle_success_first :
    (neighbor_link_callback cfg256 Estimator.init idle_success.nbr idle_success.status
      idle_success.numtx).1 = idle_state 1 := by
  have hst : idle_success.status ≠ cfg256.MAC_TX_NOACK := by decide
  show (neighbor_link_callback cfg256 Estimator.init (some 768) idle_success.status 0).1 = _
  rw [callback_success cfg256 _ _ _ _ hst]
  have hE := reset_etx_prob_ETX_values Estimator.init rfl
  have hP := reset_etx_prob_probVector Estimator.init rfl
  have hi : Estimator.init.iterations = 0 := rfl
  have hn0 : Estimator.init.n_iterations = 0 := rfl
  have hs : s16 (0 + 1) = 1 := by decide
  have hu : u16 (0 * cfg256.RPL_DAG_MC_ETX_DIVISOR) = 0 := by decide
  have hp : ¬ ((0 : Int) = MAX_LINK_METRIC * cfg256.RPL_DAG_MC_ETX_DIVISOR) := by decide
  have hle : (1 : Int) ≤ LA_Threshold := by decide
  simp only [hi, if_true, reset_etx_prob_iterations, reset_etx_prob_n_iterations, hE, hP, hs,
    learning_phase, hle, hu, hp, if_false, learning_reward_nine, hn0, idle_state]
  norm_num

theorem idle_success_step (n : Int) (h1 : 1 ≤ n) (h2 : n ≤ 32766) :
    (neighbor_link_callback cfg256 (idle_state n) idle_success.nbr idle_success.status
      idle_success.numtx).1 = idle_state (n + 1) := by
  have hst : idle_success.status ≠ cfg256.MAC_TX_NOACK := by decide
  show (neighbor_link_callback cfg256 (idle_state n) (some 768) idle_success.status 0).1 = _
  rw [callback_success cfg256 _ _ _ _ hst]
  have hi : ¬ n = 0 := by omega
  have hin : (idle_state n).iterations = n := rfl
  have hs : s16 (n + 1) = n + 1 := s16_of_range _ (by constructor <;> omega)
  have hu : u16 (0 * cfg256.RPL_DAG_MC_ETX_DIVISOR) = 0 := by decide
  have hp : ¬ ((0 : Int) = MAX_LINK_METRIC * cfg256.RPL_DAG_MC_ETX_DIVISOR) := by decide
  simp only [hin, hi, if_false, hs, learning_phase, hu, hp]
  split_ifs
  · simp only [idle_state, learning_reward_nine]
    norm_num
  · rfl

theorem run_idle_successes (n : Nat) (h : n + 1 ≤ 32767) :
    run cfg256 Estimator.init (List.replicate (n + 1) idle_success) = idle_state (n + 1) := by
  induction n with
  | zero => exact idle_success_first
  | succ n ih =>
    rw [List.replicate_succ', run, List.foldl_append]
    have ih2 := ih (by omega)
    unfold run at ih2
    rw [ih2]
    have := idle_success_step (n + 1) (by omega) (by omega)
    simpa using this

theorem reachable_idle_state (n : Nat) (h1 : 1 ≤ n) (h2 : n ≤ 32767) :
    Reachable cfg256 (idle_state n) := by
  obtain ⟨k, rfl⟩ : ∃ k, n = k + 1 := ⟨n - 1, by omega⟩
  exact ⟨_, by simpa using run_idle_successes k h2⟩

theorem learning_phase_n_iterations (cfg : Config) (s : Estimator) (p r n : Int) :
    (learning_phase cfg s p r n).n_iterations = s.n_iterations := by
  unfold learning_phase
  split_ifs <;> rfl

theorem learning_phase_ETX_values (cfg : Config) (s : Estimator) (p r n : Int) :
    (learning_phase cfg s p r n).ETX_values = s.ETX_values := by
  unfold learning_phase
  split_ifs <;> rfl

theorem failure_step_reset (cfg : Config) (s : Estimator) (m numtx : Int)
    (h1 : 25 ≤ s.iterations) (h2 : s.iterations ≤ 32766) (hn : s.n_iterations = 3)
    (hE : s.ETX_values.length = 9) (hP : s.probVector.length = 9) :
    (neighbor_link_callback cfg s (some m) cfg.MAC_TX_NOACK numtx).1 =
      learning_phase cfg (idle_state 0)
        (u16 (MAX_LINK_METRIC * cfg.RPL_DAG_MC_ETX_DIVISOR)) m numtx := by
  rw [callback_failure]
  have h0 : ¬ s.iterations = 0 := by omega
  have hs : s16 (s.iterations + 1) = s.iterations + 1 := s16_of_range _ (by constructor <;> omega)
  have hsn : s16 (3 + 1) = 4 := by decide
  have hc2 : LA_Negative_Threshold = 4 := rfl
  have hc : s.iterations + 1 > LA_Threshold := by
    unfold LA_Threshold; omega
  have hE9 := reset_etx_prob_ETX_values { s with iterations := s.iterations + 1, n_iterations := 4 } hE
  have hP9 := reset_etx_prob_probVector { s with iterations := s.iterations + 1, n_iterations := 4 } hP
  simp only [h0, if_false, hs, noack_step, hn, hsn, hc2, hc, and_self, if_true, hE9, hP9,
    idle_state]

theorem four_failures (cfg : Config) (s : Estimator)
    (hE : s.ETX_values.length = 9) (hP : s.probVector.length = 9)
    (hit : 25 < s.iterations) (hlim : s.iterations < 32764) (hn : s.n_iterations = 0)
    (m1 m2 m3 m4 n1 n2 n3 n4 : Int) :
    run cfg s [⟨some m1, cfg.MAC_TX_NOACK, n1⟩, ⟨some m2, cfg.MAC_TX_NOACK, n2⟩,
        ⟨some m3, cfg.MAC_TX_NOACK, n3⟩] =
      { s with iterations := s.iterations + 3, n_iterations := 3 } ∧
    run cfg s [⟨some m1, cfg.MAC_TX_NOACK, n1⟩, ⟨some m2, cfg.MAC_TX_NOACK, n2⟩,
        ⟨some m3, cfg.MAC_TX_NOACK, n3⟩, ⟨some m4, cfg.MAC_TX_NOACK, n4⟩] =
      learning_phase cfg (idle_state 0)
        (u16 (MAX_LINK_METRIC * cfg.RPL_DAG_MC_ETX_DIVISOR)) m4 n4 := by
  have e1 := failure_step_no_reset cfg s m1 n1 (by omega) (by omega) (by omega) (by omega)
  have e2 := failure_step_no_reset cfg
    { s with iterations := s.iterations + 1, n_iterations := s.n_iterations + 1 } m2 n2
    (by dsimp only; omega) (by dsimp only; omega) (by dsimp only; omega) (by dsimp only; omega)
  have e3 := failure_step_no_reset cfg
    { s with iterations := s.iterations + 1 + 1, n_iterations := s.n_iterations + 1 + 1 } m3 n3
    (by dsimp only; omega) (by dsimp only; omega) (by dsimp only; omega) (by dsimp only; omega)
  have e4 := failure_step_reset cfg
    { s with iterations := s.iterations + 1 + 1 + 1,
             n_iterations := s.n_iterations + 1 + 1 + 1 } m4 n4
    (by dsimp only; omega) (by dsimp only; omega) (by dsimp only; omega) hE hP
  simp only [run, List.foldl_cons, List.foldl_nil, e1, e2, e3, e4, and_true]
  have ha : s.iterations + 1 + 1 + 1 = s.iterations + 3 := by omega
  have hb : s.n_iterations + 1 + 1 + 1 = 3 := by omega
  rw [ha, hb]

theorem learning_phase_reset_penalty (cfg : Config) (m numtx : Int)
    (hD : 0 ≤ MAX_LINK_METRIC * cfg.RPL_DAG_MC_ETX_DIVISOR ∧
      MAX_LINK_METRIC * cfg.RPL_DAG_MC_ETX_DIVISOR < 65536) :
    (learning_phase cfg (idle_state 0)
        (u16 (MAX_LINK_METRIC * cfg.RPL_DAG_MC_ETX_DIVISOR)) m numtx).probVector =
      learning_penalty cfg [1, 2, 3, 4, 5, 6, 7, 8, 9] m [0, 0, 0, 0, 0, 0, 0, 0, 0] := by
  have hl : (idle_state 0).iterations ≤ LA_Threshold := by decide
  unfold learning_phase
  rw [if_pos hl, if_pos (u16_of_range _ hD)]
  rfl

/-- C4 (amended): from a reachable estimator with `iterations > LA_Threshold`
(and below 32764, so that the 16-bit counter does not wrap) and
`n_iterations = 0`, four consecutive terminal failures of resolvable
neighbors reset the estimator on the 4th and not earlier: after the third
both counters have grown by 3, after the 4th `iterations = 0`,
`n_iterations = 0` and the bins are `1..9`. When the failure ceiling
`MAX_LINK_METRIC * RPL_DAG_MC_ETX_DIVISOR` fits 16 bits, every weight is then
`0` or `0.1/8`: the reset value 0 after the penalty update of that same
call. -/
theorem reset_on_fourth_failure (cfg : Config) (s : Estimator) (hs : Reachable cfg s)
    (hit : LA_Threshold < s.iterations) (hlim : s.iterations < 32764)
    (hn : s.n_iterations = 0) (m1 m2 m3 m4 n1 n2 n3 n4 : Int) :
    (run cfg s [⟨some m1, cfg.MAC_TX_NOACK, n1⟩, ⟨some m2, cfg.MAC_TX_NOACK, n2⟩,
        ⟨some m3, cfg.MAC_TX_NOACK, n3⟩]).iterations = s.iterations + 3 ∧
    (run cfg s [⟨some m1, cfg.MAC_TX_NOACK, n1⟩, ⟨some m2, cfg.MAC_TX_NOACK, n2⟩,
        ⟨some m3, cfg.MAC_TX_NOACK, n3⟩]).n_iterations = 3 ∧
    (run cfg s [⟨some m1, cfg.MAC_TX_NOACK, n1⟩, ⟨some m2, cfg.MAC_TX_NOACK, n2⟩,
        ⟨some m3, cfg.MAC_TX_NOACK, n3⟩, ⟨some m4, cfg.MAC_TX_NOACK, n4⟩]).iterations = 0 ∧
    (run cfg s [⟨some m1, cfg.MAC_TX_NOACK, n1⟩, ⟨some m2, cfg.MAC_TX_NOACK, n2⟩,
        ⟨some m3, cfg.MAC_TX_NOACK, n3⟩, ⟨some m4, cfg.MAC_TX_NOACK, n4⟩]).n_iterations = 0 ∧
    (run cfg s [⟨some m1, cfg.MAC_TX_NOACK, n1⟩, ⟨some m2, cfg.MAC_TX_NOACK, n2⟩,
        ⟨some m3, cfg.MAC_TX_NOACK, n3⟩, ⟨some m4, cfg.MAC_TX_NOACK, n4⟩]).ETX_values =
      [1, 2, 3, 4, 5, 6, 7, 8, 9] ∧
    (0 ≤ MAX_LINK_METRIC * cfg.RPL_DAG_MC_ETX_DIVISOR ∧
        MAX_LINK_METRIC * cfg.RPL_DAG_MC_ETX_DIVISOR < 65536 →
      ∀ w ∈ (run cfg s [⟨some m1, cfg.MAC_TX_NOACK, n1⟩, ⟨some m2, cfg.MAC_TX_NOACK, n2⟩,
          ⟨some m3, cfg.MAC_TX_NOACK, n3⟩, ⟨some m4, cfg.MAC_TX_NOACK, n4⟩]).probVector,
        w = 0 ∨ w = 1 / 10 / 8) := by
  obtain ⟨hE, hP⟩ := reachable_lengths cfg s hs
  unfold LA_Threshold at hit
  obtain ⟨e3, e4⟩ := four_failures cfg s hE hP hit hlim hn m1 m2 m3 m4 n1 n2 n3 n4
  rw [e3, e4, learning_phase_iterations, learning_phase_n_iterations,
    learning_phase_ETX_values]
  refine ⟨rfl, rfl, rfl, rfl, rfl, fun hD => ?_⟩
  rw [learning_phase_reset_penalty cfg m4 n4 hD]
  exact penalty_on_reset_weights cfg m4

theorem reset_on_fourth_failure_witness :
    Reachable cfg256 (idle_state 26) ∧
    (run cfg256 (idle_state 26) [⟨some 768, 2, 1⟩, ⟨some 3, 2, 1⟩, ⟨some 3, 2, 1⟩,
        ⟨some 3, 2, 1⟩]).iterations = 0 :=
  ⟨reachable_idle_state 26 (by decide) (by decide),
   (reset_on_fourth_failure cfg256 (idle_state 26)
      (reachable_idle_state 26 (by decide) (by decide)) (by decide) (by decide) rfl
      768 3 3 3 1 1 1 1).2.2.1⟩

set_option maxRecDepth 100000 in
/-- C4 as stated fails. (1) After one terminal failure and 25 successes the
estimator is reachable with `iterations = 26 > 25` and `n_iterations = 1`;
of four further consecutive terminal failures the third resets the estimator,
and after the fourth `iterations = 1` and `n_iterations = 1`. (2) From the
reachable state with `iterations = 32766` the counter wraps and four
consecutive terminal failures do not reset at all. (3) With divisor 1, after
26 successes four consecutive terminal failures of a neighbor with
`link_metric = 3` reset on the 4th, but the weights after that call are not
all equal: bin 3 has weight 0 and the others `1/80`. -/
theorem fourth_failure_does_not_reset :
    (Reachable cfg256 (run cfg256 Estimator.init
        (noack_failure :: List.replicate 25 idle_success)) ∧
      (run cfg256 Estimator.init
        (noack_failure :: List.replicate 25 idle_success)).iterations > LA_Threshold ∧
      (run cfg256 (run cfg256 Estimator.init (noack_failure :: List.replicate 25 idle_success))
        (List.replicate 4 noack_failure)).iterations = 1 ∧
      (run cfg256 (run cfg256 Estimator.init (noack_failure :: List.replicate 25 idle_success))
        (List.replicate 4 noack_failure)).n_iterations = 1) ∧
    (Reachable cfg256 (idle_state 32766) ∧
      (idle_state 32766).iterations > LA_Threshold ∧
      (run cfg256 (idle_state 32766) (List.replicate 4 noack_failure)).iterations = -32766 ∧
      (run cfg256 (idle_state 32766) (List.replicate 4 noack_failure)).n_iterations = 4) ∧
    (Reachable cfg1 (run cfg1 Estimator.init (List.replicate 26 idle_success)) ∧
      (run cfg1 Estimator.init (List.replicate 26 idle_success)).iterations > LA_Threshold ∧
      (run cfg1 (run cfg1 Estimator.init (List.replicate 26 idle_success))
        (List.replicate 4 noack_failure_three)).iterations = 0 ∧
      (run cfg1 (run cfg1 Estimator.init (List.replicate 26 idle_success))
        (List.replicate 4 noack_failure_three)).probVector =
        [1 / 80, 1 / 80, 0, 1 / 80, 1 / 80, 1 / 80, 1 / 80, 1 / 80, 1 / 80]) := by
  refine ⟨⟨⟨_, rfl⟩, by decide, by decide, by decide⟩,
    ⟨reachable_idle_state 32766 (by decide) (by decide), by decide, by decide, by decide⟩,
    ⟨⟨_, rfl⟩, by decide, by decide, ?_⟩⟩
  obtain ⟨hE, hP⟩ := run_lengths cfg1 (List.replicate 26 idle_success) Estimator.init
  have h4 := (four_failures cfg1 (run cfg1 Estimator.init (List.replicate 26 idle_success))
    hE hP (by decide) (by decide) (by decide) 3 3 3 3 1 1 1 1).2
  have hl : List.replicate 4 noack_failure_three =
      [⟨some 3, cfg1.MAC_TX_NOACK, 1⟩, ⟨some 3, cfg1.MAC_TX_NOACK, 1⟩,
        ⟨some 3, cfg1.MAC_TX_NOACK, 1⟩, ⟨some 3, cfg1.MAC_TX_NOACK, 1⟩] := rfl
  rw [hl, h4, learning_phase_reset_penalty cfg1 3 1 (by decide), learning_penalty_nine]
  have hD : cfg1.RPL_DAG_MC_ETX_DIVISOR = 1 := rfl
  rw [hD]
  norm_num

/-! ### C5: rank calculation -/

/-- C5: for a candidate whose neighbor resolves and 16-bit `base_rank`,
advertised rank and `link_metric`, `calculate_rank` is the saturating sum
`min(INFINITE_RANK, base + link_metric)` with `INFINITE_RANK = 0xFFFF` and
`base` the `base_rank` when it is non-zero and the advertised rank of the
candidate otherwise; the result never exceeds `INFINITE_RANK` and is never
below `base`. -/
theorem calculate_rank_saturating_add (cfg : Config) (mem : Mem) (a : Nat)
    (link_metric base_rank : Int) (hn : mem.rpl_get_nbr a = some link_metric)
    (hb : 0 ≤ base_rank ∧ base_rank < 65536)
    (hr : 0 ≤ (mem.parents a).rank ∧ (mem.parents a).rank < 65536)
    (hm : 0 ≤ link_metric ∧ link_metric < 65536) :
    INFINITE_RANK = 0xFFFF ∧
    calculate_rank cfg mem (some a) base_rank =
      min INFINITE_RANK
        ((if base_rank ≠ 0 then base_rank else (mem.parents a).rank) + link_metric) ∧
    calculate_rank cfg mem (some a) base_rank ≤ INFINITE_RANK ∧
    (if base_rank ≠ 0 then base_rank else (mem.parents a).rank) ≤
      calculate_rank cfg mem (some a) base_rank := by
  have hcr : calculate_rank cfg mem (some a) base_rank =
      min INFINITE_RANK
        ((if base_rank ≠ 0 then base_rank else (mem.parents a).rank) + link_metric) := by
    unfold calculate_rank
    simp only [hn, saturating_rank, INFINITE_RANK, u16]
    by_cases h0 : base_rank = 0
    · simp only [h0, if_true, ne_eq, not_true_eq_false, if_false]
      split_ifs <;> omega
    · simp only [h0, if_false, ne_eq, not_false_eq_true, if_true]
      split_ifs <;> omega
  refine ⟨rfl, hcr, ?_, ?_⟩
  · rw [hcr]; exact min_le_left _ _
  · rw [hcr]
    unfold INFINITE_RANK
    split_ifs <;> omega

theorem calculate_rank_saturating_add_witness :
    calculate_rank cfg256 mem_two_parents (some 1) 65534 =
      min INFINITE_RANK ((if (65534 : Int) ≠ 0 then 65534 else 95) + 6) :=
  (calculate_rank_saturating_add cfg256 mem_two_parents 1 6 65534 rfl (by decide) (by decide)
    (by decide)).2.1

/-! ### C6, C7: hysteresis of the parent comparison -/

theorem min_diff_eq (cfg : Config)
    (hD : 0 ≤ cfg.RPL_DAG_MC_ETX_DIVISOR ∧ cfg.RPL_DAG_MC_ETX_DIVISOR < 65536) :
    u16 (Int.tdiv cfg.RPL_DAG_MC_ETX_DIVISOR PARENT_SWITCH_THRESHOLD_DIV) =
      cfg.RPL_DAG_MC_ETX_DIVISOR / 2 := by
  unfold PARENT_SWITCH_THRESHOLD_DIV
  rw [Int.tdiv_eq_ediv hD.1 (by norm_num)]
  exact u16_of_range _ (by constructor <;> omega)

/-- C6: with `minDiff = RPL_DAG_MC_ETX_DIVISOR / 2` (a 16-bit non-negative
divisor), if `p1` or `p2` is the preferred parent of the DAG and the two path
costs differ by less than `minDiff` in either direction, `best_parent`
returns the preferred parent, whichever cost is lower. -/
theorem best_parent_hysteresis (cfg : Config) (mem : Mem) (p1 : Nat) (p2 : Option Nat)
    (hD : 0 ≤ cfg.RPL_DAG_MC_ETX_DIVISOR ∧ cfg.RPL_DAG_MC_ETX_DIVISOR < 65536)
    (hpref : some p1 = (mem.dags (mem.parents p1).dag).preferred_parent ∨
      p2 = (mem.dags (mem.parents p1).dag).preferred_parent)
    (hband : calculate_path_metric cfg mem p2 - cfg.RPL_DAG_MC_ETX_DIVISOR / 2 <
        calculate_path_metric cfg mem (some p1) ∧
      calculate_path_metric cfg mem (some p1) <
        calculate_path_metric cfg mem p2 + cfg.RPL_DAG_MC_ETX_DIVISOR / 2) :
    best_parent cfg mem p1 p2 = (mem.dags (mem.parents p1).dag).preferred_parent := by
  unfold best_parent
  simp only [min_diff_eq cfg hD]
  rw [if_pos ⟨hpref, hband.2, hband.1⟩]

theorem best_parent_hysteresis_witness :
    best_parent cfg256 mem_two_parents 2 (some 1) = some 1 :=
  best_parent_hysteresis cfg256 mem_two_parents 2 (some 1) (by decide) (Or.inr rfl)
    (by decide)

/-- C7, evaluated at the failing input: with divisor 2 the band is one unit;
parent 1 is preferred and costs 101, parent 2 costs 100, and `best_parent`
returns parent 2 in either argument order. -/
theorem best_parent_switches_at_band_edge :
    u16 (Int.tdiv cfg2.RPL_DAG_MC_ETX_DIVISOR PARENT_SWITCH_THRESHOLD_DIV) = 1 ∧
    (mem_two_parents.dags (mem_two_parents.parents 1).dag).preferred_parent = some 1 ∧
    calculate_path_metric cfg2 mem_two_parents (some 1) = 101 ∧
    calculate_path_metric cfg2 mem_two_parents (some 2) = 100 ∧
    best_parent cfg2 mem_two_parents 1 (some 2) = some 2 ∧
    best_parent cfg2 mem_two_parents 2 (some 1) = some 2 := by
  decide

/-! ### C8, C9: comparison of DAGs -/

/-- C8: `best_dag` is transitive: if it prefers `A` to `B` and `B` to `C`,
it prefers `A` to `C`. -/
theorem best_dag_transitive (mem : Mem) (A B C : Nat)
    (hab : best_dag mem A B = A) (hbc : best_dag mem B C = B) : best_dag mem A C = A := by
  unfold best_dag at *
  cases hA : (mem.dags A).grounded <;> cases hB : (mem.dags B).grounded <;>
    cases hC : (mem.dags C).grounded <;>
    simp only [hA, hB, hC, ne_eq, not_true_eq_false, not_false_eq_true, if_true, if_false,
      Bool.false_eq_true, reduceCtorEq] at hab hbc ⊢ <;>
    split_ifs at hab hbc ⊢ <;>
    first
    | rfl
    | omega
    | (subst hab; first | rfl | omega | simp_all)
    | (subst hbc; first | rfl | omega | simp_all)

theorem best_dag_transitive_witness : best_dag mem_three_dags 0 2 = 0 :=
  best_dag_transitive mem_three_dags 0 1 2 (by decide) (by decide)

/-- C9: `best_dag` agrees with the lexicographic rule groundedness, then
higher preference, then strictly lower rank, the second operand winning on
equal ranks. -/
theorem best_dag_eq_reference (mem : Mem) (a b : Nat) :
    best_dag mem a b = best_tree_reference mem a b := by
  unfold best_dag best_tree_reference
  cases hA : (mem.dags a).grounded <;> cases hB : (mem.dags b).grounded <;>
    simp only [hA, hB, ne_eq, not_true_eq_false, not_false_eq_true, if_true, if_false,
      Bool.false_eq_true, reduceCtorEq, and_self, and_false, false_and, and_true] <;>
    split_ifs <;> first | rfl | omega

/-! ### C10: the parent comparison outside the hysteresis band -/

/-- C10: with `minDiff = RPL_DAG_MC_ETX_DIVISOR / 2` (a 16-bit non-negative
divisor), if neither `p1` nor `p2` is the preferred parent, or the path costs
differ by at least `minDiff`, `best_parent` returns `p1` when its cost is
strictly lower and the second operand `p2` otherwise, also on equal costs. -/
theorem best_parent_outside_hysteresis (cfg : Config) (mem : Mem) (p1 : Nat) (p2 : Option Nat)
    (hD : 0 ≤ cfg.RPL_DAG_MC_ETX_DIVISOR ∧ cfg.RPL_DAG_MC_ETX_DIVISOR < 65536)
    (h : (some p1 ≠ (mem.dags (mem.parents p1).dag).preferred_parent ∧
        p2 ≠ (mem.dags (mem.parents p1).dag).preferred_parent) ∨
      cfg.RPL_DAG_MC_ETX_DIVISOR / 2 ≤
        |calculate_path_metric cfg mem (some p1) - calculate_path_metric cfg mem p2|) :
    best_parent cfg mem p1 p2 =
      if calculate_path_metric cfg mem (some p1) < calculate_path_metric cfg mem p2 then some p1
      else p2 := by
  unfold best_parent
  simp only [min_diff_eq cfg hD]
  rw [if_neg]
  rintro ⟨hp, h1, h2⟩
  rcases h with ⟨n1, n2⟩ | hd
  · rcases hp with hp | hp
    · exact n1 hp
    · exact n2 hp
  · have := abs_lt.mpr (show -(cfg.RPL_DAG_MC_ETX_DIVISOR / 2) <
        calculate_path_metric cfg mem (some p1) - calculate_path_metric cfg mem p2 ∧
        calculate_path_metric cfg mem (some p1) - calculate_path_metric cfg mem p2 <
          cfg.RPL_DAG_MC_ETX_DIVISOR / 2 from ⟨by linarith, by linarith⟩)
    exact absurd hd (not_le.mpr this)

theorem best_parent_outside_hysteresis_witness :
    best_parent cfg256 mem_two_parents 3 (some 2) =
      if calculate_path_metric cfg256 mem_two_parents (some 3) <
          calculate_path_metric cfg256 mem_two_parents (some 2) then some 3
      else some 2 :=
  best_parent_outside_hysteresis cfg256 mem_two_parents 3 (some 2) (by decide)
    (Or.inl (by decide))

/-! ### C11, C12: path cost and rank of an unresolvable candidate -/

/-- C11: when `MAX_PATH_COST * RPL_DAG_MC_ETX_DIVISOR` fits 16 bits,
`calculate_path_metric` is `100 * RPL_DAG_MC_ETX_DIVISOR` for a null
candidate and for a candidate whose neighbor does not resolve; for a
candidate whose neighbor resolves it is the advertised rank (the advertised
path cost in the ETX and energy builds) plus the link metric, reduced modulo
`2^16` and not saturated. -/
theorem calculate_path_metric_spec (cfg : Config) (mem : Mem)
    (hD : 0 ≤ MAX_PATH_COST * cfg.RPL_DAG_MC_ETX_DIVISOR ∧
      MAX_PATH_COST * cfg.RPL_DAG_MC_ETX_DIVISOR < 65536) :
    calculate_path_metric cfg mem none = 100 * cfg.RPL_DAG_MC_ETX_DIVISOR ∧
    (∀ a, mem.rpl_get_nbr a = none →
      calculate_path_metric cfg mem (some a) = 100 * cfg.RPL_DAG_MC_ETX_DIVISOR) ∧
    (∀ a link_metric, mem.rpl_get_nbr a = some link_metric →
      calculate_path_metric cfg mem (some a) =
        (advertised_cost cfg (mem.parents a) + link_metric) % 65536) := by
  have h100 : u16 (MAX_PATH_COST * cfg.RPL_DAG_MC_ETX_DIVISOR) =
      100 * cfg.RPL_DAG_MC_ETX_DIVISOR := u16_of_range _ hD
  refine ⟨h100, fun a ha => ?_, fun a m ha => ?_⟩
  · unfold calculate_path_metric
    simp only [ha, h100]
  · unfold calculate_path_metric advertised_cost
    simp only [ha, u16]
    cases cfg.RPL_DAG_MC <;> simp only [] <;> omega

theorem calculate_path_metric_spec_witness :
    calculate_path_metric cfg256 mem_one_neighbor none = 100 * 256 ∧
    calculate_path_metric cfg256 mem_one_neighbor (some 2) = 100 * 256 ∧
    calculate_path_metric cfg256 mem_one_neighbor (some 1) = (65000 + 768) % 65536 :=
  ⟨(calculate_path_metric_spec cfg256 mem_one_neighbor (by decide)).1,
   (calculate_path_metric_spec cfg256 mem_one_neighbor (by decide)).2.1 2 rfl,
   (calculate_path_metric_spec cfg256 mem_one_neighbor (by decide)).2.2 1 768 rfl⟩

/-- C12: for a null candidate or a candidate whose neighbor does not
resolve, `calculate_rank` returns `INFINITE_RANK` when `base_rank` is 0 and
otherwise the saturating sum of `base_rank` and the default increase
`RPL_INIT_LINK_METRIC * RPL_DAG_MC_ETX_DIVISOR` (a 16-bit `base_rank` and a
default increase that fits 16 bits). -/
theorem calculate_rank_unresolved (cfg : Config) (mem : Mem) (p : Option Nat) (base_rank : Int)
    (hp : p = none ∨ ∃ a, p = some a ∧ mem.rpl_get_nbr a = none)
    (hb : 0 ≤ base_rank ∧ base_rank < 65536)
    (hI : 0 ≤ cfg.RPL_INIT_LINK_METRIC * cfg.RPL_DAG_MC_ETX_DIVISOR ∧
      cfg.RPL_INIT_LINK_METRIC * cfg.RPL_DAG_MC_ETX_DIVISOR < 65536) :
    calculate_rank cfg mem p base_rank =
      if base_rank = 0 then INFINITE_RANK
      else min INFINITE_RANK
        (base_rank + cfg.RPL_INIT_LINK_METRIC * cfg.RPL_DAG_MC_ETX_DIVISOR) := by
  have hu := u16_of_range _ hI
  have hcore : (if base_rank = 0 then INFINITE_RANK
      else saturating_rank base_rank
        (u16 (cfg.RPL_INIT_LINK_METRIC * cfg.RPL_DAG_MC_ETX_DIVISOR))) =
      if base_rank = 0 then INFINITE_RANK
      else min INFINITE_RANK
        (base_rank + cfg.RPL_INIT_LINK_METRIC * cfg.RPL_DAG_MC_ETX_DIVISOR) := by
    rw [hu]
    unfold saturating_rank INFINITE_RANK u16
    split_ifs <;> omega
  rcases hp with rfl | ⟨a, rfl, ha⟩
  · exact hcore
  · unfold calculate_rank
    simp only [ha]
    exact hcore

theorem calculate_rank_unresolved_witness :
    calculate_rank cfg256 mem_one_neighbor (some 2) 65400 =
      if (65400 : Int) = 0 then INFINITE_RANK else min INFINITE_RANK (65400 + 2 * 256) :=
  calculate_rank_unresolved cfg256 mem_one_neighbor (some 2) 65400
    (Or.inr ⟨2, rfl, rfl⟩) (by decide) (by decide)

/-! ### C20: the parent comparison returns one of its operands -/

/-- C20: `best_parent` returns `p1` or `p2`, whatever the preferred parent
of the DAG is: the hysteresis branch returns the preferred parent only when
it is one of the two operands. -/
theorem best_parent_returns_operand (cfg : Config) (mem : Mem) (p1 : Nat) (p2 : Option Nat) :
    best_parent cfg mem p1 p2 = some p1 ∨ best_parent cfg mem p1 p2 = p2 := by
  unfold best_parent
  dsimp only
  split_ifs with h1 h2
  · rcases h1.1 with h | h
    · exact Or.inl h.symm
    · exact Or.inr h.symm
  · exact Or.inl rfl
  · exact Or.inr rfl

/-! ### C13: reward monotonicity -/

/-- C13: on nine weights strictly between 0 and 1 and the bins `1..9`, the
reward update for an attempt count `k` in `1..9` replaces the weight `w` of
bin `k` (index `k - 1`) by `w + 0.1 * (1 - w)`, which is strictly greater
than `w` and below 1, and every other weight `w` by `0.9 * w`, which is
strictly smaller. -/
theorem reward_monotone (pv : List ℚ) (k : Int) (hlen : pv.length = 9)
    (hpv : ∀ w ∈ pv, 0 < w ∧ w < 1) (hk : 1 ≤ k ∧ k ≤ 9) :
    (learning_reward [1, 2, 3, 4, 5, 6, 7, 8, 9] k pv).length = 9 ∧
    ((k - 1).toNat < 9 ∧
      (learning_reward [1, 2, 3, 4, 5, 6, 7, 8, 9] k pv).getD (k - 1).toNat 0 =
          pv.getD (k - 1).toNat 0 + 1 / 10 * (1 - pv.getD (k - 1).toNat 0) ∧
      pv.getD (k - 1).toNat 0 <
        (learning_reward [1, 2, 3, 4, 5, 6, 7, 8, 9] k pv).getD (k - 1).toNat 0 ∧
      (learning_reward [1, 2, 3, 4, 5, 6, 7, 8, 9] k pv).getD (k - 1).toNat 0 < 1) ∧
    (∀ i, i < 9 → i ≠ (k - 1).toNat →
      (learning_reward [1, 2, 3, 4, 5, 6, 7, 8, 9] k pv).getD i 0 =
          (1 - 1 / 10) * pv.getD i 0 ∧
        (learning_reward [1, 2, 3, 4, 5, 6, 7, 8, 9] k pv).getD i 0 < pv.getD i 0) := by
  obtain ⟨w0, w1, w2, w3, w4, w5, w6, w7, w8, rfl⟩ := list_length_nine pv hlen
  have h0 := hpv w0 (by simp)
  have h1 := hpv w1 (by simp)
  have h2 := hpv w2 (by simp)
  have h3 := hpv w3 (by simp)
  have h4 := hpv w4 (by simp)
  have h5 := hpv w5 (by simp)
  have h6 := hpv w6 (by simp)
  have h7 := hpv w7 (by simp)
  have h8 := hpv w8 (by simp)
  obtain ⟨hk1, hk9⟩ := hk
  rw [learning_reward_nine]
  refine ⟨rfl, ?_, ?_⟩
  · interval_cases k <;>
      simp only [Int.toNat_ofNat, Int.reduceSub, Int.reduceToNat, List.getD_cons_zero,
        List.getD_cons_succ, if_true] <;>
      refine ⟨by decide, ?_, ?_, ?_⟩ <;> first | trivial | linarith
  · intro i hi hne
    interval_cases k <;> interval_cases i <;>
      first
      | exact absurd rfl hne
      | (simp only [List.getD_cons_zero, List.getD_cons_succ]
         rw [if_neg (by decide)]
         exact ⟨rfl, by linarith⟩)

theorem reward_monotone_witness :
    (learning_reward [1, 2, 3, 4, 5, 6, 7, 8, 9] 2 (List.replicate 9 (1 / 9))).getD
        ((2 : Int) - 1).toNat 0 =
      (List.replicate 9 (1 / 9 : ℚ)).getD ((2 : Int) - 1).toNat 0 +
        1 / 10 * (1 - (List.replicate 9 (1 / 9 : ℚ)).getD ((2 : Int) - 1).toNat 0) :=
  (reward_monotone (List.replicate 9 (1 / 9)) 2 rfl
    (fun w hw => by
      rw [List.eq_of_mem_replicate hw]
      norm_num)
    (by decide)).2.1.2.1

/-! ### C14: the uniform start -/

theorem reset_etx_prob_eq (s : Estimator) (hE : s.ETX_values.length = 9)
    (hP : s.probVector.length = 9) :
    reset_etx_prob s =
      { iterations := s.iterations, n_iterations := s.n_iterations,
        ETX_values := [1, 2, 3, 4, 5, 6, 7, 8, 9],
        probVector := [0, 0, 0, 0, 0, 0, 0, 0, 0] } := by
  have h1 := reset_etx_prob_ETX_values s hE
  have h2 := reset_etx_prob_probVector s hP
  have h3 := reset_etx_prob_iterations s
  have h4 := reset_etx_prob_n_iterations s
  cases hr : reset_etx_prob s with
  | mk it nit E P =>
    rw [hr] at h1 h2 h3 h4
    simp only at h1 h2 h3 h4
    rw [h1, h2, h3, h4]

/-- C14: a feedback call that begins with `iterations = 0` in a reachable
estimator first sets the bins to `1..9` and the nine weights to the common
value `1/ETX_COUNT`, an integer quotient that is 0, so that the weights sum
to 0; the call with an unresolvable neighbor ends in exactly that state, and
every call continues from it. -/
theorem uniform_start (cfg : Config) (s : Estimator) (hs : Reachable cfg s)
    (h0 : s.iterations = 0) (nbr : Option Int) (status numtx : Int) :
    (reset_etx_prob s).ETX_values = [1, 2, 3, 4, 5, 6, 7, 8, 9] ∧
    (reset_etx_prob s).probVector = List.replicate 9 (((1 / ETX_COUNT : Nat) : ℚ)) ∧
    (((1 / ETX_COUNT : Nat) : ℚ)) = 0 ∧
    (reset_etx_prob s).probVector.sum = 0 ∧
    neighbor_link_callback cfg s none status numtx = (reset_etx_prob s, none) ∧
    neighbor_link_callback cfg s nbr status numtx =
      neighbor_link_callback cfg (reset_etx_prob s) nbr status numtx := by
  obtain ⟨hE, hP⟩ := reachable_lengths cfg s hs
  have hq : (((1 / ETX_COUNT : Nat) : ℚ)) = 0 := by
    norm_num [ETX_COUNT]
  have hidem : reset_etx_prob (reset_etx_prob s) = reset_etx_prob s := by
    rw [reset_etx_prob_eq (reset_etx_prob s) (by rw [(reset_etx_prob_lengths s).1, hE])
      (by rw [(reset_etx_prob_lengths s).2, hP]), reset_etx_prob_eq s hE hP]
  refine ⟨reset_etx_prob_ETX_values s hE, ?_, hq, ?_, ?_, ?_⟩
  · rw [reset_etx_prob_probVector s hP, hq]
    rfl
  · rw [reset_etx_prob_probVector s hP]
    norm_num
  · unfold neighbor_link_callback
    simp only [h0, if_true]
  · have h0r : (reset_etx_prob s).iterations = 0 := h0
    unfold neighbor_link_callback
    simp only [h0, h0r, if_true, hidem]

theorem uniform_start_witness :
    Estimator.init.iterations = 0 ∧
    (reset_etx_prob Estimator.init).ETX_values = [1, 2, 3, 4, 5, 6, 7, 8, 9] ∧
    (reset_etx_prob Estimator.init).probVector.sum = 0 :=
  ⟨rfl, (uniform_start cfg256 Estimator.init ⟨[], rfl⟩ rfl none 0 0).1,
    (uniform_start cfg256 Estimator.init ⟨[], rfl⟩ rfl none 0 0).2.2.2.1⟩

/-! ### C16: the weights invariant -/

theorem learning_reward_bounds (E : List Int) (numtx : Int) (pv : List ℚ)
    (hE : E.length = 9) (hP : pv.length = 9) (h : ∀ w ∈ pv, 0 ≤ w ∧ w ≤ 1) :
    ∀ w ∈ learning_reward E numtx pv, 0 ≤ w ∧ w ≤ 1 := by
  obtain ⟨b0, b1, b2, b3, b4, b5, b6, b7, b8, rfl⟩ := list_length_nine E hE
  obtain ⟨w0, w1, w2, w3, w4, w5, w6, w7, w8, rfl⟩ := list_length_nine pv hP
  have h0 := h w0 (by simp)
  have h1 := h w1 (by simp)
  have h2 := h w2 (by simp)
  have h3 := h w3 (by simp)
  have h4 := h w4 (by simp)
  have h5 := h w5 (by simp)
  have h6 := h w6 (by simp)
  have h7 := h w7 (by simp)
  have h8 := h w8 (by simp)
  rw [learning_reward_nine]
  intro w hw
  simp only [List.mem_cons, List.mem_singleton, List.not_mem_nil, or_false] at hw
  rcases hw with e | e | e | e | e | e | e | e | e <;> rw [e] <;> split_ifs <;>
    constructor <;> linarith

theorem learning_penalty_bounds (cfg : Config) (E : List Int) (r : Int) (pv : List ℚ)
    (hE : E.length = 9) (hP : pv.length = 9) (h : ∀ w ∈ pv, 0 ≤ w ∧ w ≤ 1) :
    ∀ w ∈ learning_penalty cfg E r pv, 0 ≤ w ∧ w ≤ 1 := by
  obtain ⟨b0, b1, b2, b3, b4, b5, b6, b7, b8, rfl⟩ := list_length_nine E hE
  obtain ⟨w0, w1, w2, w3, w4, w5, w6, w7, w8, rfl⟩ := list_length_nine pv hP
  have h0 := h w0 (by simp)
  have h1 := h w1 (by simp)
  have h2 := h w2 (by simp)
  have h3 := h w3 (by simp)
  have h4 := h w4 (by simp)
  have h5 := h w5 (by simp)
  have h6 := h w6 (by simp)
  have h7 := h w7 (by simp)
  have h8 := h w8 (by simp)
  rw [learning_penalty_nine]
  intro w hw
  simp only [List.mem_cons, List.mem_singleton, List.not_mem_nil, or_false] at hw
  rcases hw with e | e | e | e | e | e | e | e | e <;> rw [e] <;> split_ifs <;>
    constructor <;> linarith

theorem weightsInv_reset (s : Estimator) (h : WeightsInv s) : WeightsInv (reset_etx_prob s) := by
  obtain ⟨hE, hP, _⟩ := h
  rw [reset_etx_prob_eq s hE hP]
  refine ⟨rfl, rfl, fun w hw => ?_⟩
  simp only [List.mem_cons, List.mem_singleton, List.not_mem_nil, or_false, or_self] at hw
  rw [hw]
  norm_num

theorem weightsInv_noack_step (s : Estimator) (h : WeightsInv s) : WeightsInv (noack_step s) := by
  unfold noack_step
  dsimp only
  split
  · exact weightsInv_reset { s with n_iterations := s16 (s.n_iterations + 1) } h
  · exact h

theorem weightsInv_learning_phase (cfg : Config) (s : Estimator) (p r n : Int)
    (h : WeightsInv s) : WeightsInv (learning_phase cfg s p r n) := by
  obtain ⟨hE, hP, hb⟩ := h
  unfold learning_phase
  split_ifs
  · exact ⟨hE, (learning_penalty_length _ _ _ _).trans hP,
      learning_penalty_bounds cfg _ _ _ hE hP hb⟩
  · exact ⟨hE, (learning_reward_length _ _ _).trans hP, learning_reward_bounds _ _ _ hE hP hb⟩
  · exact ⟨hE, hP, hb⟩

theorem weightsInv_callback (cfg : Config) (s : Estimator) (nbr : Option Int)
    (status numtx : Int) (h : WeightsInv s) :
    WeightsInv (neighbor_link_callback cfg s nbr status numtx).1 := by
  have h0 : WeightsInv (if s.iterations = 0 then reset_etx_prob s else s) := by
    split
    · exact weightsInv_reset s h
    · exact h
  cases nbr with
  | none => exact h0
  | some m =>
    by_cases hs : status = cfg.MAC_TX_NOACK
    · subst hs
      rw [callback_failure]
      exact weightsInv_learning_phase _ _ _ _ _ (weightsInv_noack_step _ h0)
    · rw [callback_success _ _ _ _ _ hs]
      exact weightsInv_learning_phase _ _ _ _ _ h0

theorem weightsInv_run (cfg : Config) (events : List Feedback) (s : Estimator)
    (h : WeightsInv s) : WeightsInv (run cfg s events) := by
  induction events generalizing s with
  | nil => exact h
  | cons e es ih => exact ih _ (weightsInv_callback cfg s e.nbr e.status e.numtx h)

theorem weightsInv_init : WeightsInv Estimator.init := by
  refine ⟨rfl, rfl, fun w hw => ?_⟩
  rw [List.eq_of_mem_replicate hw]
  norm_num

/-- C16: in every estimator state reachable from program start by feedback
calls of any status, attempt count and recorded link metric (resolvable or
not), `ETX_values` and `probVector` have nine entries and every weight is at
least 0 and at most 1. -/
theorem reachable_weights_bounded (cfg : Config) (s : Estimator) (hs : Reachable cfg s) :
    s.ETX_values.length = 9 ∧ s.probVector.length = 9 ∧
      ∀ w ∈ s.probVector, 0 ≤ w ∧ w ≤ 1 := by
  obtain ⟨events, rfl⟩ := hs
  exact weightsInv_run cfg events Estimator.init weightsInv_init

theorem reachable_weights_bounded_witness :
    Reachable cfg256 (idle_state 26) ∧ (idle_state 26).probVector.length = 9 ∧
      ((0 : ℚ) ≤ 0 ∧ (0 : ℚ) ≤ 1) :=
  ⟨reachable_idle_state 26 (by decide) (by decide),
    (reachable_weights_bounded cfg256 (idle_state 26)
      (reachable_idle_state 26 (by decide) (by decide))).2.1,
    (reachable_weights_bounded cfg256 (idle_state 26)
      (reachable_idle_state 26 (by decide) (by decide))).2.2 0 (by simp [idle_state])⟩

/-! ### C15, C19: the counting step and the phase gate -/

theorem callback_resolved (cfg : Config) (s : Estimator) (m status numtx : Int) :
    neighbor_link_callback cfg s (some m) status numtx =
      (learning_phase cfg (counting_step cfg s status) (observed_cost cfg status numtx) m numtx,
        some (decision_step cfg
          (learning_phase cfg (counting_step cfg s status) (observed_cost cfg status numtx)
            m numtx)
          (u16 (3 * cfg.RPL_DAG_MC_ETX_DIVISOR)))) := by
  unfold counting_step observed_cost
  by_cases hs : status = cfg.MAC_TX_NOACK
  · subst hs
    rw [callback_failure]
    simp only [if_true]
  · rw [callback_success _ _ _ _ _ hs]
    simp only [hs, if_false]

theorem noack_step_cases (s : Estimator) :
    (noack_step s).iterations = 0 ∨
      ((noack_step s).iterations = s.iterations ∧ (noack_step s).probVector = s.probVector ∧
        (noack_step s).ETX_values = s.ETX_values) := by
  unfold noack_step
  dsimp only
  split
  · exact Or.inl rfl
  · exact Or.inr ⟨rfl, rfl, rfl⟩

theorem counting_step_past_threshold (cfg : Config) (s : Estimator) (status : Int)
    (h : LA_Threshold < (counting_step cfg s status).iterations) :
    (counting_step cfg s status).probVector = s.probVector ∧
      (counting_step cfg s status).ETX_values = s.ETX_values := by
  unfold LA_Threshold at h
  unfold counting_step at h ⊢
  by_cases h0 : s.iterations = 0
  · exfalso
    have h1 : s16 ((reset_etx_prob s).iterations + 1) = 1 := by
      rw [reset_etx_prob_iterations, h0]; decide
    simp only [h0, if_true, h1] at h
    split at h
    · rcases noack_step_cases { reset_etx_prob s with iterations := 1 } with hz | ⟨hi, _⟩
      · rw [hz] at h; omega
      · rw [hi] at h; simp only at h; omega
    · simp only at h; omega
  · simp only [h0, if_false] at h ⊢
    split at h
    · rename_i hs
      rw [if_pos hs]
      rcases noack_step_cases { s with iterations := s16 (s.iterations + 1) } with hz | ⟨_, hp, he⟩
      · rw [hz] at h; omega
      · exact ⟨hp, he⟩
    · rename_i hs
      rw [if_neg hs]
      exact ⟨rfl, rfl⟩

/-- C15 (amended): on a feedback call with a resolvable neighbor the phase
gates the update rules as well as the decision. When the call ends with
`iterations <= LA_Threshold`, exactly one rule is applied to the weights left
by the counting step: the penalty update if `packet_etx` equals the failure
ceiling and the reward update otherwise. When it ends with
`iterations > LA_Threshold`, neither rule is applied and weights and bins are
those before the call. The decision runs when `iterations >= LA_Threshold`,
and the default `3 * RPL_DAG_MC_ETX_DIVISOR` is stored otherwise. -/
theorem update_rules_gated_by_phase (cfg : Config) (s : Estimator) (m status numtx : Int) :
    (neighbor_link_callback cfg s (some m) status numtx).1.iterations =
      (counting_step cfg s status).iterations ∧
    ((neighbor_link_callback cfg s (some m) status numtx).1.iterations ≤ LA_Threshold →
      (neighbor_link_callback cfg s (some m) status numtx).1.probVector =
        if observed_cost cfg status numtx = MAX_LINK_METRIC * cfg.RPL_DAG_MC_ETX_DIVISOR then
          learning_penalty cfg (counting_step cfg s status).ETX_values m
            (counting_step cfg s status).probVector
        else
          learning_reward (counting_step cfg s status).ETX_values numtx
            (counting_step cfg s status).probVector) ∧
    (LA_Threshold < (neighbor_link_callback cfg s (some m) status numtx).1.iterations →
      (neighbor_link_callback cfg s (some m) status numtx).1.probVector = s.probVector ∧
      (neighbor_link_callback cfg s (some m) status numtx).1.ETX_values = s.ETX_values) ∧
    (neighbor_link_callback cfg s (some m) status numtx).2 =
      some (if LA_Threshold ≤ (neighbor_link_callback cfg s (some m) status numtx).1.iterations
        then u16 ((neighbor_link_callback cfg s (some m) status numtx).1.ETX_values.getD
          (highest_etx (neighbor_link_callback cfg s (some m) status numtx).1.probVector) 0 *
            cfg.RPL_DAG_MC_ETX_DIVISOR)
        else u16 (3 * cfg.RPL_DAG_MC_ETX_DIVISOR)) := by
  rw [callback_resolved]
  simp only [learning_phase_iterations]
  refine ⟨trivial, fun hle => ?_, fun hgt => ?_, ?_⟩
  · unfold learning_phase
    rw [if_pos hle]
    split_ifs <;> rfl
  · have hno : ¬ (counting_step cfg s status).iterations ≤ LA_Threshold := not_le.mpr hgt
    obtain ⟨hp, he⟩ := counting_step_past_threshold cfg s status hgt
    unfold learning_phase
    rw [if_neg hno]
    exact ⟨hp, he⟩
  · unfold decision_step
    simp only [learning_phase_iterations, ge_iff_le]

theorem update_rules_gated_by_phase_witness :
    LA_Threshold < (neighbor_link_callback cfg256 (idle_state 26) (some 768) 0 2).1.iterations ∧
    (neighbor_link_callback cfg256 (idle_state 26) (some 768) 0 2).1.probVector =
      (idle_state 26).probVector :=
  ⟨by decide,
    ((update_rules_gated_by_phase cfg256 (idle_state 26) 768 0 2).2.2.1 (by decide)).1⟩

/-- C15 as stated fails: in the reachable estimator with `iterations = 26`
and all weights 0, a success reporting 2 transmissions and a terminal failure
both leave the weights unchanged, although either update rule would have
changed them. -/
theorem no_update_past_threshold :
    Reachable cfg256 (idle_state 26) ∧
    (neighbor_link_callback cfg256 (idle_state 26) (some 768) 0 2).1.probVector =
      (idle_state 26).probVector ∧
    (neighbor_link_callback cfg256 (idle_state 26) (some 768)
      cfg256.MAC_TX_NOACK 1).1.probVector = (idle_state 26).probVector ∧
    learning_reward (idle_state 26).ETX_values 2 (idle_state 26).probVector ≠
      (idle_state 26).probVector ∧
    learning_penalty cfg256 (idle_state 26).ETX_values 768 (idle_state 26).probVector ≠
      (idle_state 26).probVector := by
  have hgt : ∀ status, LA_Threshold < (counting_step cfg256 (idle_state 26) status).iterations := by
    intro status
    unfold counting_step
    by_cases hs : status = cfg256.MAC_TX_NOACK
    · rw [if_pos hs]; decide
    · rw [if_neg hs]; decide
  have hkeep : ∀ status numtx,
      (neighbor_link_callback cfg256 (idle_state 26) (some 768) status numtx).1.probVector =
        (idle_state 26).probVector := by
    intro status numtx
    rw [callback_resolved]
    unfold learning_phase
    rw [if_neg (not_le.mpr (hgt status))]
    exact (counting_step_past_threshold cfg256 (idle_state 26) status (hgt status)).1
  refine ⟨reachable_idle_state 26 (by decide) (by decide), hkeep 0 2, hkeep _ 1, ?_, ?_⟩
  · simp only [idle_state, learning_reward_nine]
    norm_num
  · have hD : cfg256.RPL_DAG_MC_ETX_DIVISOR = 256 := rfl
    simp only [idle_state, learning_penalty_nine, hD]
    norm_num

theorem counting_step_counters (cfg : Config) (s : Estimator) (status : Int)
    (hit : 0 ≤ s.iterations ∧ s.iterations < 32767)
    (hn : 0 ≤ s.n_iterations ∧ s.n_iterations < 32767) :
    (status = cfg.MAC_TX_NOACK ∧ 25 ≤ s.iterations ∧ s.n_iterations = 3 →
      (counting_step cfg s status).iterations = 0 ∧
        (counting_step cfg s status).n_iterations = 0) ∧
    (¬ (status = cfg.MAC_TX_NOACK ∧ 25 ≤ s.iterations ∧ s.n_iterations = 3) →
      (counting_step cfg s status).iterations = s.iterations + 1 ∧
        (counting_step cfg s status).n_iterations =
          if status = cfg.MAC_TX_NOACK then s.n_iterations + 1 else s.n_iterations) := by
  have hs1 : s16 (s.iterations + 1) = s.iterations + 1 :=
    s16_of_range _ (by constructor <;> omega)
  have hs2 : s16 (s.n_iterations + 1) = s.n_iterations + 1 :=
    s16_of_range _ (by constructor <;> omega)
  have hpre : ∀ t : Estimator, t.iterations = s.iterations → t.n_iterations = s.n_iterations →
      (status = cfg.MAC_TX_NOACK ∧ 25 ≤ s.iterations ∧ s.n_iterations = 3 →
        (if status = cfg.MAC_TX_NOACK then
            noack_step { t with iterations := s16 (t.iterations + 1) }
          else { t with iterations := s16 (t.iterations + 1) }).iterations = 0 ∧
        (if status = cfg.MAC_TX_NOACK then
            noack_step { t with iterations := s16 (t.iterations + 1) }
          else { t with iterations := s16 (t.iterations + 1) }).n_iterations = 0) ∧
      (¬ (status = cfg.MAC_TX_NOACK ∧ 25 ≤ s.iterations ∧ s.n_iterations = 3) →
        (if status = cfg.MAC_TX_NOACK then
            noack_step { t with iterations := s16 (t.iterations + 1) }
          else { t with iterations := s16 (t.iterations + 1) }).iterations = s.iterations + 1 ∧
        (if status = cfg.MAC_TX_NOACK then
            noack_step { t with iterations := s16 (t.iterations + 1) }
          else { t with iterations := s16 (t.iterations + 1) }).n_iterations =
          if status = cfg.MAC_TX_NOACK then s.n_iterations + 1 else s.n_iterations) := by
    intro t ht hnt
    by_cases hs : status = cfg.MAC_TX_NOACK
    · simp only [hs, if_true, true_and, noack_step, ht, hnt, hs1, hs2, LA_Threshold,
        LA_Negative_Threshold]
      constructor
      · intro h
        rw [if_pos ⟨by omega, by omega⟩]
        exact ⟨rfl, rfl⟩
      · intro h
        rw [if_neg (by omega)]
        exact ⟨rfl, rfl⟩
    · simp only [hs, if_false, false_and, false_implies, not_false_eq_true, true_implies,
        true_and, ht, hs1]
      exact hnt
  unfold counting_step
  by_cases h0 : s.iterations = 0
  · simp only [if_pos h0]
    exact hpre (reset_etx_prob s) (reset_etx_prob_iterations s) (reset_etx_prob_n_iterations s)
  · simp only [if_neg h0]
    exact hpre s rfl rfl

theorem callback_counters (cfg : Config) (s : Estimator) (m status numtx : Int) :
    (neighbor_link_callback cfg s (some m) status numtx).1.iterations =
        (counting_step cfg s status).iterations ∧
      (neighbor_link_callback cfg s (some m) status numtx).1.n_iterations =
        (counting_step cfg s status).n_iterations := by
  rw [callback_resolved]
  exact ⟨learning_phase_iterations _ _ _ _ _, learning_phase_n_iterations _ _ _ _ _⟩

theorem run_no_reset (cfg : Config) (events : List Feedback) :
    ∀ s : Estimator, (∀ e ∈ events, e.nbr ≠ none) → 4 ≤ s.n_iterations → 0 ≤ s.iterations →
      s.iterations + events.length ≤ 32767 → s.n_iterations + events.length ≤ 32767 →
      (run cfg s events).iterations = s.iterations + events.length ∧
        4 ≤ (run cfg s events).n_iterations := by
  induction events with
  | nil =>
    intro s _ h4 _ _ _
    exact ⟨by simp [run], h4⟩
  | cons e es ih =>
    intro s hres h4 h0 hb1 hb2
    simp only [List.length_cons, Nat.cast_add, Nat.cast_one] at hb1 hb2 ⊢
    obtain ⟨m, hm⟩ : ∃ m, e.nbr = some m := by
      cases he : e.nbr with
      | none => exact absurd he (hres e (List.mem_cons_self _ _))
      | some m => exact ⟨m, rfl⟩
    have hstep := (counting_step_counters cfg s e.status ⟨h0, by omega⟩ ⟨by omega, by omega⟩).2
      (by omega)
    obtain ⟨c1, c2⟩ := callback_counters cfg s m e.status e.numtx
    have hrun : run cfg s (e :: es) =
        run cfg (neighbor_link_callback cfg s (some m) e.status e.numtx).1 es := by
      show run cfg (neighbor_link_callback cfg s e.nbr e.status e.numtx).1 es = _
      rw [hm]
    have hi : (neighbor_link_callback cfg s (some m) e.status e.numtx).1.iterations =
        s.iterations + 1 := c1.trans hstep.1
    have hn : s.n_iterations ≤
        (neighbor_link_callback cfg s (some m) e.status e.numtx).1.n_iterations ∧
        (neighbor_link_callback cfg s (some m) e.status e.numtx).1.n_iterations ≤
          s.n_iterations + 1 := by
      rw [c2, hstep.2]
      split_ifs <;> constructor <;> omega
    obtain ⟨r1, r2⟩ := ih (neighbor_link_callback cfg s (some m) e.status e.numtx).1
      (fun x hx => hres x (List.mem_cons_of_mem _ hx)) (by omega) (by omega) (by omega)
      (by omega)
    rw [hrun]
    exact ⟨by rw [r1, hi]; omega, r2⟩

/-- C19: for a feedback call with a resolvable neighbor and counters that
are non-negative and below 32767, the call ends with `iterations = 0` and
`n_iterations = 0` exactly when the status is `MAC_TX_NOACK`, `iterations`
was at least 25 and `n_iterations` was exactly 3; in every other case
`iterations` grows by 1 and `n_iterations` grows by 1 on `MAC_TX_NOACK` and
is unchanged otherwise. Consequently, from `n_iterations >= 4` no sequence of
calls with resolvable neighbors that keeps the counters within 16 bits
resets: `iterations` grows by the number of calls. -/
theorem reset_condition_exact (cfg : Config) (s : Estimator) (m status numtx : Int)
    (hit : 0 ≤ s.iterations ∧ s.iterations < 32767)
    (hn : 0 ≤ s.n_iterations ∧ s.n_iterations < 32767) :
    (((neighbor_link_callback cfg s (some m) status numtx).1.iterations = 0 ∧
        (neighbor_link_callback cfg s (some m) status numtx).1.n_iterations = 0) ↔
      (status = cfg.MAC_TX_NOACK ∧ 25 ≤ s.iterations ∧ s.n_iterations = 3)) ∧
    (¬ (status = cfg.MAC_TX_NOACK ∧ 25 ≤ s.iterations ∧ s.n_iterations = 3) →
      (neighbor_link_callback cfg s (some m) status numtx).1.iterations = s.iterations + 1 ∧
      (neighbor_link_callback cfg s (some m) status numtx).1.n_iterations =
        if status = cfg.MAC_TX_NOACK then s.n_iterations + 1 else s.n_iterations) ∧
    (∀ events : List Feedback, (∀ e ∈ events, e.nbr ≠ none) → 4 ≤ s.n_iterations →
      s.iterations + events.length ≤ 32767 → s.n_iterations + events.length ≤ 32767 →
      (run cfg s events).iterations = s.iterations + events.length ∧
        4 ≤ (run cfg s events).n_iterations) := by
  obtain ⟨c1, c2⟩ := callback_counters cfg s m status numtx
  obtain ⟨hyes, hno⟩ := counting_step_counters cfg s status hit hn
  rw [c1, c2]
  refine ⟨⟨fun h => ?_, hyes⟩, hno, fun events hres h4 hb1 hb2 =>
    run_no_reset cfg events s hres h4 hit.1 hb1 hb2⟩
  by_contra hc
  have := (hno hc).1
  omega

theorem reset_condition_exact_witness :
    ((neighbor_link_callback cfg256 (idle_state 26) (some 768) 2 1).1.iterations = 0 ∧
        (neighbor_link_callback cfg256 (idle_state 26) (some 768) 2 1).1.n_iterations = 0) ↔
      ((2 : Int) = cfg256.MAC_TX_NOACK ∧ 25 ≤ (idle_state 26).iterations ∧
        (idle_state 26).n_iterations = 3) :=
  (reset_condition_exact cfg256 (idle_state 26) 768 2 1 (by decide) (by decide)).1

/-! ### C18: the decision step -/

theorem highest_etx_scan_spec (pv : List ℚ) (hnn : ∀ i, 0 ≤ pv.getD i 0) (n : Nat) :
    ((List.range (n + 1)).foldl
        (fun (acc : ℚ × Nat) i => if pv.getD i 0 > acc.1 then (pv.getD i 0, i) else acc)
        ((0 : ℚ), 0)).2 ≤ n ∧
    ((List.range (n + 1)).foldl
        (fun (acc : ℚ × Nat) i => if pv.getD i 0 > acc.1 then (pv.getD i 0, i) else acc)
        ((0 : ℚ), 0)).1 =
      pv.getD ((List.range (n + 1)).foldl
        (fun (acc : ℚ × Nat) i => if pv.getD i 0 > acc.1 then (pv.getD i 0, i) else acc)
        ((0 : ℚ), 0)).2 0 ∧
    (∀ i, i ≤ n → pv.getD i 0 ≤
      ((List.range (n + 1)).foldl
        (fun (acc : ℚ × Nat) i => if pv.getD i 0 > acc.1 then (pv.getD i 0, i) else acc)
        ((0 : ℚ), 0)).1) ∧
    (∀ i, i < ((List.range (n + 1)).foldl
        (fun (acc : ℚ × Nat) i => if pv.getD i 0 > acc.1 then (pv.getD i 0, i) else acc)
        ((0 : ℚ), 0)).2 →
      pv.getD i 0 < ((List.range (n + 1)).foldl
        (fun (acc : ℚ × Nat) i => if pv.getD i 0 > acc.1 then (pv.getD i 0, i) else acc)
        ((0 : ℚ), 0)).1) := by
  induction n with
  | zero =>
    have hr : List.range (0 + 1) = [0] := rfl
    rw [hr]
    simp only [List.foldl_cons, List.foldl_nil]
    by_cases h : pv.getD 0 0 > 0
    · rw [if_pos h]
      exact ⟨le_refl _, rfl, fun i hi => by rw [Nat.le_zero.mp hi],
        fun i hi => absurd hi (Nat.not_lt_zero i)⟩
    · rw [if_neg h]
      have h0 : pv.getD 0 0 = 0 := le_antisymm (not_lt.mp h) (hnn 0)
      exact ⟨le_refl _, h0.symm, fun i hi => by rw [Nat.le_zero.mp hi, h0],
        fun i hi => absurd hi (Nat.not_lt_zero i)⟩
  | succ n ih =>
    rw [List.range_succ, List.foldl_append]
    simp only [List.foldl_cons, List.foldl_nil]
    generalize (List.range (n + 1)).foldl
        (fun (acc : ℚ × Nat) i => if pv.getD i 0 > acc.1 then (pv.getD i 0, i) else acc)
        ((0 : ℚ), 0) = acc at ih ⊢
    obtain ⟨h1, h2, h3, h4⟩ := ih
    by_cases h : pv.getD (n + 1) 0 > acc.1
    · rw [if_pos h]
      refine ⟨le_refl _, rfl, fun i hi => ?_, fun i hi => ?_⟩
      · rcases Nat.lt_or_ge i (n + 1) with hlt | hge
        · exact le_of_lt (lt_of_le_of_lt (h3 i (by omega)) h)
        · have : i = n + 1 := by omega
          rw [this]
      · exact lt_of_le_of_lt (h3 i (by simp only at hi; omega)) h
    · rw [if_neg h]
      refine ⟨by omega, h2, fun i hi => ?_, h4⟩
      rcases Nat.lt_or_ge i (n + 1) with hlt | hge
      · exact h3 i (by omega)
      · have : i = n + 1 := by omega
        rw [this]
        exact not_lt.mp h

theorem highest_etx_first_maximum (pv : List ℚ) (hnn : ∀ w ∈ pv, 0 ≤ w) :
    highest_etx pv < 9 ∧
    (∀ i, i < 9 → pv.getD i 0 ≤ pv.getD (highest_etx pv) 0) ∧
    (∀ i, i < highest_etx pv → pv.getD i 0 < pv.getD (highest_etx pv) 0) := by
  have hget : ∀ i, 0 ≤ pv.getD i 0 := by
    intro i
    rw [List.getD_eq_getElem?_getD]
    cases h : pv[i]? with
    | none => simp
    | some w =>
      simp only [Option.getD_some]
      exact hnn w (List.getElem?_mem h)
  have hscan := highest_etx_scan_spec pv hget 8
  simp only [Nat.reduceAdd] at hscan
  obtain ⟨h1, h2, h3, h4⟩ := hscan
  unfold highest_etx highest_etx_scan ETX_COUNT
  refine ⟨by omega, fun i hi => ?_, fun i hi => ?_⟩
  · rw [← h2]
    exact h3 i (by omega)
  · rw [← h2]
    exact h4 i hi

theorem noack_step_bins (s : Estimator) (hE : s.ETX_values.length = 9)
    (hb : s.ETX_values = [1, 2, 3, 4, 5, 6, 7, 8, 9]) :
    (noack_step s).ETX_values = [1, 2, 3, 4, 5, 6, 7, 8, 9] := by
  unfold noack_step
  dsimp only
  split
  · exact reset_etx_prob_ETX_values { s with n_iterations := s16 (s.n_iterations + 1) } hE
  · exact hb

theorem callback_bins (cfg : Config) (s : Estimator) (nbr : Option Int) (status numtx : Int)
    (hE : s.ETX_values.length = 9)
    (hb : s.iterations = 0 ∨ s.ETX_values = [1, 2, 3, 4, 5, 6, 7, 8, 9]) :
    (neighbor_link_callback cfg s nbr status numtx).1.ETX_values =
      [1, 2, 3, 4, 5, 6, 7, 8, 9] := by
  have h0 : (if s.iterations = 0 then reset_etx_prob s else s).ETX_values =
      [1, 2, 3, 4, 5, 6, 7, 8, 9] := by
    by_cases hz : s.iterations = 0
    · rw [if_pos hz]; exact reset_etx_prob_ETX_values s hE
    · rw [if_neg hz]; exact hb.resolve_left hz
  cases nbr with
  | none => exact h0
  | some m =>
    rw [callback_resolved, learning_phase_ETX_values]
    unfold counting_step
    dsimp only
    split
    · exact noack_step_bins _ (by rw [h0]; rfl) h0
    · exact h0

theorem run_bins (cfg : Config) (events : List Feedback) (s : Estimator)
    (hE : s.ETX_values.length = 9)
    (hb : s.iterations = 0 ∨ s.ETX_values = [1, 2, 3, 4, 5, 6, 7, 8, 9]) :
    (run cfg s events).iterations = 0 ∨
      (run cfg s events).ETX_values = [1, 2, 3, 4, 5, 6, 7, 8, 9] := by
  induction events generalizing s with
  | nil => exact hb
  | cons e es ih =>
    have hstep := callback_bins cfg s e.nbr e.status e.numtx hE hb
    exact ih (neighbor_link_callback cfg s e.nbr e.status e.numtx).1 (by rw [hstep]; rfl)
      (Or.inr hstep)

theorem reachable_bins (cfg : Config) (s : Estimator) (hs : Reachable cfg s) :
    s.iterations = 0 ∨ s.ETX_values = [1, 2, 3, 4, 5, 6, 7, 8, 9] := by
  obtain ⟨events, rfl⟩ := hs
  exact run_bins cfg events Estimator.init rfl (Or.inl rfl)

/-- C18: on a feedback call for a resolvable neighbor that ends with
`iterations >= LA_Threshold` and non-negative weights, the value stored into
`link_metric` is `ETX_values[j] * RPL_DAG_MC_ETX_DIVISOR` (as a `uint16_t`,
which is the product itself when it fits 16 bits), where `j < 9` is the
smallest index whose weight is the maximum of the nine weights: no weight
exceeds that of `j`, every weight before `j` is strictly smaller, and `j = 0`
when all weights are 0. In a reachable estimator the bins are then `1..9`, so
that bin value 1 is chosen when all weights are 0, and the stored value is
the product itself for a non-negative divisor with `9 * divisor < 2^16`. -/
theorem decision_selects_first_maximum (cfg : Config) (s : Estimator) (m status numtx : Int)
    (hge : LA_Threshold ≤ (neighbor_link_callback cfg s (some m) status numtx).1.iterations)
    (hnn : ∀ w ∈ (neighbor_link_callback cfg s (some m) status numtx).1.probVector, 0 ≤ w) :
    (neighbor_link_callback cfg s (some m) status numtx).2 =
      some (u16 ((neighbor_link_callback cfg s (some m) status numtx).1.ETX_values.getD
        (highest_etx (neighbor_link_callback cfg s (some m) status numtx).1.probVector) 0 *
          cfg.RPL_DAG_MC_ETX_DIVISOR)) ∧
    ((0 ≤ (neighbor_link_callback cfg s (some m) status numtx).1.ETX_values.getD
        (highest_etx (neighbor_link_callback cfg s (some m) status numtx).1.probVector) 0 *
          cfg.RPL_DAG_MC_ETX_DIVISOR ∧
      (neighbor_link_callback cfg s (some m) status numtx).1.ETX_values.getD
        (highest_etx (neighbor_link_callback cfg s (some m) status numtx).1.probVector) 0 *
          cfg.RPL_DAG_MC_ETX_DIVISOR < 65536) →
      (neighbor_link_callback cfg s (some m) status numtx).2 =
        some ((neighbor_link_callback cfg s (some m) status numtx).1.ETX_values.getD
          (highest_etx (neighbor_link_callback cfg s (some m) status numtx).1.probVector) 0 *
            cfg.RPL_DAG_MC_ETX_DIVISOR)) ∧
    highest_etx (neighbor_link_callback cfg s (some m) status numtx).1.probVector < 9 ∧
    (∀ i, i < 9 →
      (neighbor_link_callback cfg s (some m) status numtx).1.probVector.getD i 0 ≤
        (neighbor_link_callback cfg s (some m) status numtx).1.probVector.getD
          (highest_etx (neighbor_link_callback cfg s (some m) status numtx).1.probVector) 0) ∧
    (∀ i, i < highest_etx (neighbor_link_callback cfg s (some m) status numtx).1.probVector →
      (neighbor_link_callback cfg s (some m) status numtx).1.probVector.getD i 0 <
        (neighbor_link_callback cfg s (some m) status numtx).1.probVector.getD
          (highest_etx (neighbor_link_callback cfg s (some m) status numtx).1.probVector) 0) ∧
    ((∀ w ∈ (neighbor_link_callback cfg s (some m) status numtx).1.probVector, w = 0) →
      highest_etx (neighbor_link_callback cfg s (some m) status numtx).1.probVector = 0) ∧
    (Reachable cfg s →
      (neighbor_link_callback cfg s (some m) status numtx).1.ETX_values =
        [1, 2, 3, 4, 5, 6, 7, 8, 9] ∧
      (0 ≤ cfg.RPL_DAG_MC_ETX_DIVISOR ∧ 9 * cfg.RPL_DAG_MC_ETX_DIVISOR < 65536 →
        (neighbor_link_callback cfg s (some m) status numtx).2 =
          some (([1, 2, 3, 4, 5, 6, 7, 8, 9] : List Int).getD
            (highest_etx (neighbor_link_callback cfg s (some m) status numtx).1.probVector) 0 *
              cfg.RPL_DAG_MC_ETX_DIVISOR))) := by
  have hlm := callback_link_metric cfg s m status numtx
  unfold decision_step at hlm
  rw [if_pos hge] at hlm
  obtain ⟨h1, h2, h3⟩ := highest_etx_first_maximum _ hnn
  refine ⟨hlm, fun hfit => ?_, h1, h2, h3, fun hz => ?_, fun hs => ?_⟩
  · rw [hlm, u16_of_range _ hfit]
  rotate_left
  · have hbins := callback_bins cfg s (some m) status numtx (reachable_lengths cfg s hs).1
      (reachable_bins cfg s hs)
    refine ⟨hbins, fun hD => ?_⟩
    rw [hlm, hbins]
    generalize highest_etx (neighbor_link_callback cfg s (some m) status numtx).1.probVector = j
      at h1 ⊢
    congr 1
    interval_cases j <;>
      simp only [List.getD_cons_zero, List.getD_cons_succ] <;>
      exact u16_of_range _ (by constructor <;> omega)
  · by_contra hne
    have hpos : 0 < highest_etx (neighbor_link_callback cfg s (some m) status numtx).1.probVector :=
      Nat.pos_of_ne_zero hne
    have hlt := h3 0 hpos
    have hall : ∀ i, (neighbor_link_callback cfg s (some m) status numtx).1.probVector.getD i 0
        = 0 := by
      intro i
      rw [List.getD_eq_getElem?_getD]
      cases h : (neighbor_link_callback cfg s (some m) status numtx).1.probVector[i]? with
      | none => simp
      | some w =>
        simp only [Option.getD_some]
        exact hz w (List.getElem?_mem h)
    rw [hall 0, hall _] at hlt
    exact lt_irrefl _ hlt

theorem decision_selects_first_maximum_witness :
    (neighbor_link_callback cfg256 (idle_state 24) (some 768) 0 0).2 =
      some (u16 ((neighbor_link_callback cfg256 (idle_state 24) (some 768) 0 0).1.ETX_values.getD
        (highest_etx (neighbor_link_callback cfg256 (idle_state 24) (some 768) 0 0).1.probVector) 0 *
          cfg256.RPL_DAG_MC_ETX_DIVISOR)) :=
  (decision_selects_first_maximum cfg256 (idle_state 24) 768 0 0 (by decide)
    (by
      have hst : (neighbor_link_callback cfg256 (idle_state 24) (some 768) 0 0).1 =
          idle_state (24 + 1) := idle_success_step 24 (by decide) (by decide)
      rw [hst]
      intro w hw
      simp only [idle_state, List.mem_cons, List.mem_singleton, List.not_mem_nil, or_false,
        or_self] at hw
      rw [hw])).1

/-! ### C17: the metric publisher -/

theorem calculate_path_metric_range (cfg : Config) (mem : Mem) (p : Option Nat) :
    0 ≤ calculate_path_metric cfg mem p ∧ calculate_path_metric cfg mem p < 65536 := by
  have hu : ∀ x : Int, 0 ≤ u16 x ∧ u16 x < 65536 := by
    intro x; unfold u16; omega
  unfold calculate_path_metric
  cases p with
  | none => exact hu _
  | some a =>
    dsimp only
    cases mem.rpl_get_nbr a with
    | none => exact hu _
    | some m =>
      dsimp only
      cases cfg.RPL_DAG_MC <;> exact hu _

/-- C17 (amended): in the build without metric container
`update_metric_container` changes the container type only. In the ETX and
energy builds it sets type, flags, aggregation and precedence to
`RPL_DAG_MC`, `RPL_DAG_MC_FLAG_P`, `RPL_DAG_MC_AGGR_ADDITIVE` and 0; when the
current DAG is not joined, length and payload fields are left unchanged; when
it is joined and its rank is the root rank, the payload is 0; otherwise the
payload is the path cost of the preferred parent reduced modulo the number of
values of the payload field (`obj.etx` or `obj.energy.energy_est`), which is
the path cost itself when that field holds 16 bits. -/
theorem update_metric_container_spec (cfg : Config) (mcc : McConfig) (mem : Mem)
    (inst : rpl_instance_t) :
    (cfg.RPL_DAG_MC = MetricMode.RPL_DAG_MC_NONE →
      update_metric_container cfg mcc mem inst =
        { inst with mc := { inst.mc with type := mcc.RPL_DAG_MC } }) ∧
    (cfg.RPL_DAG_MC ≠ MetricMode.RPL_DAG_MC_NONE →
      (update_metric_container cfg mcc mem inst).mc.type = mcc.RPL_DAG_MC ∧
      (update_metric_container cfg mcc mem inst).mc.flags = mcc.RPL_DAG_MC_FLAG_P ∧
      (update_metric_container cfg mcc mem inst).mc.aggr = mcc.RPL_DAG_MC_AGGR_ADDITIVE ∧
      (update_metric_container cfg mcc mem inst).mc.prec = 0 ∧
      ((mem.dags inst.current_dag).joined = false →
        (update_metric_container cfg mcc mem inst).mc.length = inst.mc.length ∧
        (update_metric_container cfg mcc mem inst).mc.obj_etx = inst.mc.obj_etx ∧
        (update_metric_container cfg mcc mem inst).mc.obj_energy_flags =
          inst.mc.obj_energy_flags ∧
        (update_metric_container cfg mcc mem inst).mc.obj_energy_energy_est =
          inst.mc.obj_energy_energy_est) ∧
      ((mem.dags inst.current_dag).joined = true →
        (mem.dags inst.current_dag).rank = inst.ROOT_RANK →
        payload cfg (update_metric_container cfg mcc mem inst).mc = 0) ∧
      ((mem.dags inst.current_dag).joined = true →
        (mem.dags inst.current_dag).rank ≠ inst.ROOT_RANK →
        payload cfg (update_metric_container cfg mcc mem inst).mc =
            calculate_path_metric cfg mem (mem.dags inst.current_dag).preferred_parent %
              payload_range cfg mcc ∧
          (65536 ≤ payload_range cfg mcc →
            payload cfg (update_metric_container cfg mcc mem inst).mc =
              calculate_path_metric cfg mem (mem.dags inst.current_dag).preferred_parent))) := by
  have hpc := calculate_path_metric_range cfg mem (mem.dags inst.current_dag).preferred_parent
  unfold update_metric_container payload payload_range
  cases hmode : cfg.RPL_DAG_MC with
  | RPL_DAG_MC_NONE =>
    exact ⟨fun _ => rfl, fun h => absurd rfl h⟩
  | RPL_DAG_MC_ETX =>
    refine ⟨fun h => (by cases h), fun _ => ?_⟩
    dsimp only
    cases hj : (mem.dags inst.current_dag).joined
    · simp
    · by_cases hr : (mem.dags inst.current_dag).rank = inst.ROOT_RANK
      · simp [hr]
      · simp only [Bool.true_eq_false, if_false, hr, true_and, false_implies,
          not_false_eq_true, true_implies, ne_eq, not_true_eq_false, not_false_eq_true,
          implies_true]
        intro h16
        exact Int.emod_eq_of_lt hpc.1 (lt_of_lt_of_le hpc.2 h16)
  | RPL_DAG_MC_ENERGY =>
    refine ⟨fun h => (by cases h), fun _ => ?_⟩
    dsimp only
    cases hj : (mem.dags inst.current_dag).joined
    · simp
    · by_cases hr : (mem.dags inst.current_dag).rank = inst.ROOT_RANK
      · simp [hr]
      · simp only [Bool.true_eq_false, if_false, hr, true_and, false_implies,
          not_false_eq_true, true_implies, ne_eq, not_true_eq_false, not_false_eq_true,
          implies_true]
        intro h16
        exact Int.emod_eq_of_lt hpc.1 (lt_of_lt_of_le hpc.2 h16)

theorem update_metric_container_spec_witness :
    payload cfg_energy
        (update_metric_container cfg_energy mcc_energy mem_one_neighbor inst_zero).mc =
      calculate_path_metric cfg_energy mem_one_neighbor
          (mem_one_neighbor.dags inst_zero.current_dag).preferred_parent %
        payload_range cfg_energy mcc_energy :=
  (((update_metric_container_spec cfg_energy mcc_energy mem_one_neighbor inst_zero).2
    (by decide)).2.2.2.2.2.2 rfl (by decide)).1

/-- C17 as stated fails in the energy build: the current DAG is joined, its
rank 200 is not the root rank 256, the path cost of the preferred parent is
`40 + 768 = 808`, and the payload `obj.energy.energy_est`, a field of 256
values, is set to 40. -/
theorem energy_payload_is_truncated :
    cfg_energy.RPL_DAG_MC ≠ MetricMode.RPL_DAG_MC_NONE ∧
    (mem_one_neighbor.dags inst_zero.current_dag).joined = true ∧
    (mem_one_neighbor.dags inst_zero.current_dag).rank ≠ inst_zero.ROOT_RANK ∧
    calculate_path_metric cfg_energy mem_one_neighbor
      (mem_one_neighbor.dags inst_zero.current_dag).preferred_parent = 808 ∧
    payload cfg_energy
      (update_metric_container cfg_energy mcc_energy mem_one_neighbor inst_zero).mc = 40 := by
  decide

end LAOF
